import Mathlib

/-!
The kmscube display pipeline: discovery, plane format negotiation, framebuffer cache,
and the loop of `main`.

A shallow embedding of `src/kmscube.c`.

Conventions of the embedding.

* Object identifiers and the other `uint32_t` quantities are natural numbers.  The few places
  where the C integer types change a value (the `uint8_t` primary index, the `int8_t`
  requested connector, the `unsigned int` out-parameter of the property lookup, the
  `uint32_t` areas) carry an explicit conversion.
* The kernel objects reachable through the display handle are a `World`: one lookup per
  libdrm getter.  A getter is `Option`-valued exactly where the source tests its result
  against `NULL`; where the source dereferences the result unconditionally the lookup is total.
* The per-display arrays of the global `drm` are maps from the index to the slot.  An access
  at an index that is not below `MAX_DISPLAYS`, and a read through a mode pointer that does
  not point to a mode, are undefined behaviour in C; the functions that can reach one
  return `none` (respectively `Flow.undef`) there.
-/

namespace Kmscube

/-! ## Constants of the libdrm headers -/

/-- The fourcc code 'XR24'. -/
def DRM_FORMAT_XRGB8888 : Nat := 0x34325258
/-- The fourcc code 'AR24'. -/
def DRM_FORMAT_ARGB8888 : Nat := 0x34325241
/-- The fourcc code 'RG16'. -/
def DRM_FORMAT_RGB565 : Nat := 0x36314752
/-- Plane type value of a primary plane. -/
def DRM_PLANE_TYPE_PRIMARY : Nat := 1
/-- Connection state value of a connected connector. -/
def DRM_MODE_CONNECTED : Nat := 1
/-- Capacity of the per-display arrays of `drm`. -/
def MAX_DISPLAYS : Nat := 4

/-! ## Kernel objects -/

/-- The fields of `drmModeModeInfo` the program reads for control flow (both `uint16_t`). -/
structure drmModeModeInfo where
  hdisplay : Nat
  vdisplay : Nat
  deriving DecidableEq, Repr

/-- The fields of `drmModeCrtc` read by `init_drm`; `mode_valid` is a C `int`. -/
structure drmModeCrtc where
  crtc_id : Nat
  x : Nat
  y : Nat
  width : Nat
  height : Nat
  mode_valid : Int
  deriving DecidableEq, Repr

/-- The fields of `drmModeEncoder` read by `init_drm`. -/
structure drmModeEncoder where
  encoder_id : Nat
  crtc_id : Nat
  possible_crtcs : Nat
  deriving DecidableEq, Repr

/-- A connector: `encoders` and `modes` are the arrays of `count_encoders` and
`count_modes` entries. -/
structure drmModeConnector where
  connector_id : Nat
  encoder_id : Nat
  connection : Nat
  encoders : List Nat
  modes : List drmModeModeInfo
  deriving DecidableEq, Repr

/-- A plane: `formats` is the array of `count_formats` entries. -/
structure drmModePlane where
  plane_id : Nat
  crtc_id : Nat
  formats : List Nat
  deriving DecidableEq, Repr

/-- A property description as returned by `drmModeGetProperty`. -/
structure drmModePropertyRes where
  prop_id : Nat
  name : String
  deriving DecidableEq, Repr

/-- An attribute bag: entry `i` is the pair `(props[i], prop_values[i])`, for
`i < count_props`. -/
structure drmModeObjectProperties where
  props : List (Nat × Nat)
  deriving DecidableEq, Repr

/-- The part of `drmModeRes` walked by `init_drm`. -/
structure drmModeRes where
  connectors : List Nat
  crtcs : List Nat
  deriving DecidableEq, Repr

/-- The kernel side seen through the display handle. -/
structure World where
  /-- Result of `drmOpen` for a module name: a descriptor, or a negative value. -/
  drmOpen : String → Int
  /-- Result of `drmModeGetResources`; the source tests it against `NULL`. -/
  drmModeGetResources : Option drmModeRes
  drmModeGetConnector : Nat → drmModeConnector
  drmModeGetEncoder : Nat → drmModeEncoder
  drmModeGetCrtc : Nat → drmModeCrtc
  /-- Plane identifiers enumerated with the universal-plane capability enabled;
  the source tests the result against `NULL`. -/
  drmModeGetPlaneResources : Option (List Nat)
  drmModeGetPlane : Nat → Option drmModePlane
  /-- Attribute bag of a plane, by plane identifier. -/
  drmModeObjectGetProperties : Nat → Option drmModeObjectProperties
  drmModeGetProperty : Nat → drmModePropertyRes

/-! ## Program state -/

/-- The globals `drm` and `DISP_ID`, together with the universal-plane client capability
held by the kernel for the descriptor `drm.fd`.  The field `drm.resource_id` (a pointer
stored as an integer, read by no branch) is left out; `encoder` and `connectors` hold the
objects the stored pointers point to. -/
structure State where
  fd : Int
  ndisp : Nat
  crtc_id : Nat → Nat
  connector_id : Nat → Nat
  encoder : Nat → Option drmModeEncoder
  format : Nat → Nat
  mode : Nat → Option drmModeModeInfo
  connectors : Nat → Option drmModeConnector
  DISP_ID : Nat
  universal_planes : Nat

/-- Store `v` in slot `i` of a per-display array. -/
def store {α : Type} (arr : Nat → α) (i : Nat) (v : α) : Nat → α :=
  fun j => if j = i then v else arr j

/-- The zero-initialised globals at program start, with the capability at `cap`. -/
def State.init (cap : Nat) : State :=
  { fd := 0, ndisp := 0, crtc_id := fun _ => 0, connector_id := fun _ => 0,
    encoder := fun _ => none, format := fun _ => 0, mode := fun _ => none,
    connectors := fun _ => none, DISP_ID := 0, universal_planes := cap }

/-- The call `drmSetClientCap(drm.fd, DRM_CLIENT_CAP_UNIVERSAL_PLANES, value)`. -/
def drmSetClientCap (s : State) (value : Nat) : State :=
  { s with universal_planes := value }

/-! ## Property lookup -/

/-- The scan of `get_drm_prop_val`: walks the bag from index `i`; at the first entry whose
resolved name equals `name` it leaves the loop with `prop_id` set to that property's
identifier and `i` at that entry; at the end of the bag `prop_id` is still `0`. -/
def get_drm_prop_val_scan (w : World) (name : String) :
    List (Nat × Nat) → Nat → Nat × Nat
  | [], i => (0, i)
  | e :: rest, i =>
    let p := w.drmModeGetProperty e.1
    if p.name = name then (p.prop_id, i)
    else get_drm_prop_val_scan w name rest (i + 1)

/-- The function `get_drm_prop_val`: takes the bag, the name and the current content of
`*p_val`; returns the status and the content of `*p_val` afterwards.  The `uint64_t` value
is converted to the `unsigned int` of the out-parameter. -/
def get_drm_prop_val (w : World) (props : drmModeObjectProperties) (name : String)
    (p_val : Nat) : Int × Nat :=
  let r := get_drm_prop_val_scan w name props.props 0
  if r.1 = 0 then (-1, p_val)
  else (0, (props.props.getD r.2 (0, 0)).2 % 4294967296)

/-! ## Plane format negotiation -/

/-- The function `search_plane_format`. -/
def search_plane_format (desired_format : Nat) : List Nat → Bool
  | [] => false
  | f :: formats => if desired_format = f then true else search_plane_format desired_format formats

/-- The priority list `drm_formats` of `set_drm_format`. -/
def drm_formats : List Nat :=
  [DRM_FORMAT_XRGB8888, DRM_FORMAT_ARGB8888, DRM_FORMAT_RGB565]

/-- The inner loop of `set_drm_format` over the priority list: the first candidate found in
the plane's formats, if any. -/
def set_drm_format_pick (formats : List Nat) : List Nat → Option Nat
  | [] => none
  | c :: candidates =>
    if search_plane_format c formats then some c else set_drm_format_pick formats candidates

/-- How a loop body is left: fall through to the next iteration, `return r`, or undefined
behaviour. -/
inductive Flow (ρ σ : Type) where
  | next (s : σ)
  | ret (r : ρ) (s : σ)
  | undef

/-- The body of the plane loop of `set_drm_format` for the plane identifier `id`.  It is
undefined when a primary plane is reached while `drm.ndisp` is not below `MAX_DISPLAYS`
(the slot `drm.crtc_id[drm.ndisp]` is read there). -/
def set_drm_format_plane (w : World) (s : State) (id : Nat) : Flow Bool State :=
  match w.drmModeGetPlane id with
  | none => Flow.next s
  | some plane =>
    match w.drmModeObjectGetProperties plane.plane_id with
    | none => Flow.next s
    | some props =>
      let r := get_drm_prop_val w props "type" 0
      if r.1 < 0 then Flow.next s
      else if r.2 ≠ DRM_PLANE_TYPE_PRIMARY then Flow.next s
      else if MAX_DISPLAYS ≤ s.ndisp then Flow.undef
      else
        let plane1 : drmModePlane :=
          if plane.crtc_id = 0 then { plane with crtc_id := s.crtc_id s.ndisp } else plane
        if plane1.crtc_id = s.crtc_id s.ndisp then
          match set_drm_format_pick plane1.formats drm_formats with
          | some f => Flow.ret true { s with format := store s.format s.ndisp f }
          | none => Flow.next s
        else Flow.next s

/-- The plane loop of `set_drm_format`. -/
def set_drm_format_planes (w : World) : State → List Nat → Flow Bool State
  | s, [] => Flow.next s
  | s, id :: planes =>
    match set_drm_format_plane w s id with
    | Flow.next s1 => set_drm_format_planes w s1 planes
    | Flow.ret r s1 => Flow.ret r s1
    | Flow.undef => Flow.undef

/-- The function `set_drm_format`: the result and the state afterwards, or `none` on
undefined behaviour. -/
def set_drm_format (w : World) (s : State) : Option (Bool × State) :=
  let s1 := drmSetClientCap s 1
  match w.drmModeGetPlaneResources with
  | none => some (false, drmSetClientCap s1 0)
  | some planes =>
    match set_drm_format_planes w s1 planes with
    | Flow.undef => none
    | Flow.ret found s2 => some (found, drmSetClientCap s2 0)
    | Flow.next s2 => some (false, drmSetClientCap s2 0)

/-! ## Display resource discovery -/

/-- The module names tried by `init_drm`, in order. -/
def modules : List String :=
  ["omapdrm", "tilcdc", "i915", "radeon", "nouveau", "vmwgfx", "exynos"]

/-- The module loop of `init_drm`: the value left in `drm.fd`. -/
def init_drm_open (w : World) : List String → Int → Int
  | [], fd => fd
  | m :: ms, _ =>
    let fd := w.drmOpen m
    if fd < 0 then init_drm_open w ms fd else fd

/-- The pipe loop `for (k = 0; k < resources->count_crtcs; ++k)` of `init_drm`, entered
with `encoder->crtc_id` equal to `0`: the value of `encoder->crtc_id` afterwards.  The mask
`1 << k` is taken in 32 bits. -/
def init_drm_find_crtc (possible_crtcs : Nat) : List Nat → Nat → Nat
  | [], _ => 0
  | c :: crtcs, k =>
    if possible_crtcs &&& ((1 <<< k) % 4294967296) = 0 then
      init_drm_find_crtc possible_crtcs crtcs (k + 1)
    else c

/-- The encoder loop of `init_drm` for one connector.  The local `encoder` is declared
once for the whole function, so its value on entry is the one left by the previous
connector; the loop returns the connector (whose `encoder_id` may have been filled in) and
the value of `encoder` at loop exit. -/
def init_drm_encoders (w : World) (crtcs : List Nat) :
    drmModeConnector → Option drmModeEncoder → List Nat →
      drmModeConnector × Option drmModeEncoder
  | connector, encoder, [] => (connector, encoder)
  | connector, _, id :: ids =>
    let encoder := w.drmModeGetEncoder id
    let connector : drmModeConnector :=
      if connector.encoder_id = 0 then { connector with encoder_id := encoder.encoder_id }
      else connector
    if encoder.encoder_id = connector.encoder_id then
      if encoder.crtc_id = 0 then
        let encoder : drmModeEncoder :=
          { encoder with crtc_id := init_drm_find_crtc encoder.possible_crtcs crtcs 0 }
        if encoder.crtc_id = 0 then init_drm_encoders w crtcs connector none ids
        else (connector, some encoder)
      else (connector, some encoder)
    else init_drm_encoders w crtcs connector none ids

/-- The mode loop of `init_drm`: the first mode of the connector matching the pipe's
reported geometry (`width`, `height` when `mode_valid`, else `x`, `y`); `none` when the
loop runs to `count_modes`. -/
def init_drm_pick_mode (crtc : drmModeCrtc) : List drmModeModeInfo → Option drmModeModeInfo
  | [] => none
  | m :: modes =>
    if crtc.mode_valid ≠ 0 then
      if m.hdisplay = crtc.width ∧ m.vdisplay = crtc.height then some m
      else init_drm_pick_mode crtc modes
    else
      if m.hdisplay = crtc.x ∧ m.vdisplay = crtc.y then some m
      else init_drm_pick_mode crtc modes

/-- The pointer stored in `drm.mode[drm.ndisp]`: the matching mode, else `&modes[0]`,
which points to no mode when the connector has none. -/
def init_drm_mode (crtc : drmModeCrtc) (connector : drmModeConnector) :
    Option drmModeModeInfo :=
  match init_drm_pick_mode crtc connector.modes with
  | some m => some m
  | none => connector.modes.head?

/-- The product `vdisplay * hdisplay` of the two `uint16_t` fields as it is stored in the
`uint32_t` locals `maxRes` and `curRes`. -/
def resolution (m : drmModeModeInfo) : Nat :=
  (m.vdisplay * m.hdisplay) % 4294967296

/-- The primary-display tracking of `init_drm` for the entry just written at `drm.ndisp`,
followed by `drm.ndisp++`.  `connector_id` is the `int8_t` global, converted to `uint32_t`
for the comparison; `DISP_ID` is a `uint8_t`; `d1` is `DISP_ID` after the test of the
requested connector, and reading `drm.mode[DISP_ID]` is undefined when `DISP_ID` is not
below `MAX_DISPLAYS` or the slot points to no mode. -/
def init_drm_primary (connector_id : Int) (all_display : Nat) (s : State)
    (cur : drmModeModeInfo) : Option State :=
  let d1 : Nat :=
    if connector_id ≠ -1 ∧ (connector_id % 4294967296).toNat = s.connector_id s.ndisp then
      s.ndisp % 256
    else s.DISP_ID
  if all_display ≠ 0 then
    if MAX_DISPLAYS ≤ d1 then none
    else
      match s.mode d1 with
      | none => none
      | some prim =>
        let maxRes := resolution prim
        let curRes := resolution cur
        let d2 : Nat := if curRes > maxRes then s.ndisp % 256 else d1
        some { s with DISP_ID := d2, ndisp := s.ndisp + 1 }
  else some { s with DISP_ID := d1, ndisp := s.ndisp + 1 }

/-- The assignments of `init_drm` to the slots at `drm.ndisp` (mode, connector identity,
encoder, pipe, connector), made before `set_drm_format` is called. -/
def init_drm_record (w : World) (s : State) (connector : drmModeConnector)
    (encoder : drmModeEncoder) : State :=
  { s with
    mode := store s.mode s.ndisp (init_drm_mode (w.drmModeGetCrtc encoder.crtc_id) connector)
    connector_id := store s.connector_id s.ndisp connector.connector_id
    encoder := store s.encoder s.ndisp (some encoder)
    crtc_id := store s.crtc_id s.ndisp encoder.crtc_id
    connectors := store s.connectors s.ndisp (some connector) }

/-- The body of the connector loop of `init_drm` for the connector identifier `id`; the
loop state is the globals together with the local `encoder`.  Writing the slots at
`drm.ndisp` is undefined when `drm.ndisp` is not below `MAX_DISPLAYS`, and so is the read
through `drm.mode[drm.ndisp]` (for the report printed after a successful negotiation) when
the connector has no mode. -/
def init_drm_connector (w : World) (connector_id : Int) (all_display : Nat)
    (crtcs : List Nat) (ls : State × Option drmModeEncoder) (id : Nat) :
    Flow Int (State × Option drmModeEncoder) :=
  let connector := w.drmModeGetConnector id
  if connector.connection = DRM_MODE_CONNECTED then
    let r := init_drm_encoders w crtcs connector ls.2 connector.encoders
    match r.2 with
    | none => Flow.next (ls.1, none)
    | some encoder =>
      if MAX_DISPLAYS ≤ ls.1.ndisp then Flow.undef
      else
        match set_drm_format w (init_drm_record w ls.1 r.1 encoder) with
        | none => Flow.undef
        | some (false, s2) => Flow.ret (-1) (s2, some encoder)
        | some (true, s2) =>
          match s2.mode s2.ndisp with
          | none => Flow.undef
          | some cur =>
            match init_drm_primary connector_id all_display s2 cur with
            | none => Flow.undef
            | some s3 => Flow.next (s3, some encoder)
  else Flow.next ls

/-- The connector loop of `init_drm`. -/
def init_drm_connectors (w : World) (connector_id : Int) (all_display : Nat)
    (crtcs : List Nat) :
    State × Option drmModeEncoder → List Nat → Flow Int (State × Option drmModeEncoder)
  | ls, [] => Flow.next ls
  | ls, id :: ids =>
    match init_drm_connector w connector_id all_display crtcs ls id with
    | Flow.next ls1 => init_drm_connectors w connector_id all_display crtcs ls1 ids
    | Flow.ret code ls1 => Flow.ret code ls1
    | Flow.undef => Flow.undef

/-- The function `init_drm`, run on the globals `s` with the command-line globals
`connector_id` and `all_display`: the returned status and the globals afterwards, or `none`
on undefined behaviour. -/
def init_drm (w : World) (connector_id : Int) (all_display : Nat) (s : State) :
    Option (Int × State) :=
  let s1 : State := { s with fd := init_drm_open w modules s.fd }
  if s1.fd < 0 then some (-1, s1)
  else
    match w.drmModeGetResources with
    | none => some (-1, s1)
    | some resources =>
      match init_drm_connectors w connector_id all_display resources.crtcs (s1, none)
          resources.connectors with
      | Flow.undef => none
      | Flow.ret code ls => some (code, ls.1)
      | Flow.next ls => if ls.1.ndisp = 0 then some (-1, ls.1) else some (0, ls.1)

/-! ## Buffer object to framebuffer cache -/

/-- The structure `drm_fb`; a buffer object is named by a number. -/
structure drm_fb where
  bo : Nat
  fb_id : Nat
  deriving DecidableEq, Repr

/-- The user data attached to each buffer object (`gbm_bo_get_user_data`), and the
framebuffers created so far by successful `drmModeAddFB2` calls, oldest first. -/
structure FbState where
  user_data : Nat → Option drm_fb
  registered : List drm_fb

/-- Buffers as the allocator hands them out: nothing attached, nothing registered. -/
def FbState.init : FbState :=
  { user_data := fun _ => none, registered := [] }

/-- The function `drm_fb_get_from_bo`.  `addfb` is what `drmModeAddFB2` does if it is
called: its return value and the framebuffer identifier it writes on success.  The result
is the returned pointer (`none` for `NULL`) and the state afterwards; `calloc` is taken to
succeed. -/
def drm_fb_get_from_bo (s : FbState) (bo : Nat) (addfb : Int × Nat) :
    Option drm_fb × FbState :=
  match s.user_data bo with
  | some fb => (some fb, s)
  | none =>
    if addfb.1 ≠ 0 then (none, s)
    else
      let fb : drm_fb := { bo := bo, fb_id := addfb.2 }
      (some fb, { user_data := store s.user_data bo (some fb),
                  registered := s.registered ++ [fb] })

/-- A sequence of `drm_fb_get_from_bo` calls, each given with its buffer and with what
`drmModeAddFB2` would do: the state after the last call. -/
def drm_fb_get_from_bo_calls (s : FbState) : List (Nat × (Int × Nat)) → FbState
  | [] => s
  | c :: calls => drm_fb_get_from_bo_calls (drm_fb_get_from_bo s c.1 c.2).2 calls

/-- Number of framebuffers registered for the buffer `bo`. -/
def registrations (s : FbState) (bo : Nat) : Nat :=
  (s.registered.filter (fun fb => fb.bo = bo)).length

/-! ## Display set read back from the slots -/

/-- One round of the primary-display tracking, read from the slot arrays: `d` is `DISP_ID`
before entry `n` is considered, the result is `DISP_ID` afterwards. -/
def init_drm_track_step (connector_id : Int) (all_display : Nat) (ids : Nat → Nat)
    (modes : Nat → Option drmModeModeInfo) (n d : Nat) : Nat :=
  let d1 :=
    if connector_id ≠ -1 ∧ (connector_id % 4294967296).toNat = ids n then n % 256 else d
  if all_display ≠ 0 then
    match modes d1, modes n with
    | some prim, some cur => if resolution cur > resolution prim then n % 256 else d1
    | _, _ => d1
  else d1

/-- The value of `DISP_ID` after the first `n` entries were recorded, recomputed from the
slots of `s`: the tracking rule replayed from `DISP_ID = 0`. -/
def init_drm_track (connector_id : Int) (all_display : Nat) (s : State) : Nat → Nat
  | 0 => 0
  | n + 1 =>
    init_drm_track_step connector_id all_display s.connector_id s.mode n
      (init_drm_track connector_id all_display s n)

/-- Slot `i` of `s` holds a display recorded from one of the connectors `ids`: a connected
connector of the device, the encoder adopted for it, that encoder's pipe, the mode chosen
against that pipe, and a format of the priority list. -/
def Recorded (w : World) (ids : List Nat) (s : State) (i : Nat) : Prop :=
  ∃ (id : Nat) (connector : drmModeConnector) (encoder : drmModeEncoder)
    (m : drmModeModeInfo),
    id ∈ ids ∧ (w.drmModeGetConnector id).connection = DRM_MODE_CONNECTED ∧
    connector.connector_id = (w.drmModeGetConnector id).connector_id ∧
    connector.connection = DRM_MODE_CONNECTED ∧
    connector.modes = (w.drmModeGetConnector id).modes ∧
    s.connectors i = some connector ∧ s.connector_id i = connector.connector_id ∧
    s.encoder i = some encoder ∧ s.crtc_id i = encoder.crtc_id ∧
    s.mode i = some m ∧
    init_drm_mode (w.drmModeGetCrtc encoder.crtc_id) connector = some m ∧
    s.format i ∈ drm_formats

/-- The two states have the same slots below `n`. -/
def SameSlots (n : Nat) (s s' : State) : Prop :=
  ∀ i, i < n →
    s'.crtc_id i = s.crtc_id i ∧ s'.connector_id i = s.connector_id i ∧
    s'.encoder i = s.encoder i ∧ s'.format i = s.format i ∧ s'.mode i = s.mode i ∧
    s'.connectors i = s.connectors i

/-- The Display Set held by the globals `s`: at most `MAX_DISPLAYS` entries, each recorded
from a connected connector among `ids`, with `DISP_ID` the outcome of the tracking rule on
those entries. -/
def DisplaySet (w : World) (c : Int) (a : Nat) (ids : List Nat) (s : State) : Prop :=
  s.ndisp ≤ MAX_DISPLAYS ∧ (∀ i, i < s.ndisp → Recorded w ids s i) ∧
  s.DISP_ID = init_drm_track c a s s.ndisp

/-- The connector identifiers enumerated by the device (none when `drmModeGetResources`
fails). -/
def World.connectors (w : World) : List Nat :=
  match w.drmModeGetResources with
  | some resources => resources.connectors
  | none => []

/-- Whether a loop fell through. -/
def Flow.isNext {ρ σ : Type} : Flow ρ σ → Bool
  | Flow.next _ => true
  | _ => false

/-- The loop state a connector loop ends in (the initial one if it is undefined). -/
def loop_state (f : Flow Int (State × Option drmModeEncoder)) :
    State × Option drmModeEncoder :=
  match f with
  | Flow.next ls => ls
  | Flow.ret _ ls => ls
  | Flow.undef => (State.init 0, none)

/-- The state a run ends in (the initial globals if the run is undefined). -/
def final_state {ρ : Type} (r : Option (ρ × State)) : State :=
  match r with
  | some x => x.2
  | none => State.init 0

/-- The globals when `set_drm_format` is entered for the first display on pipe `crtc`. -/
def pipe_state (crtc : Nat) (cap : Nat) : State :=
  { State.init cap with crtc_id := store (fun _ => 0) 0 crtc }

/-! ## The loop of `main` -/

/-- The function `drm_fmt_to_gbm_fmt`; the GBM format codes are the fourcc codes of the
DRM formats. -/
def drm_fmt_to_gbm_fmt (fmt : Nat) : Nat :=
  if fmt = DRM_FORMAT_XRGB8888 then DRM_FORMAT_XRGB8888
  else if fmt = DRM_FORMAT_ARGB8888 then DRM_FORMAT_ARGB8888
  else if fmt = DRM_FORMAT_RGB565 then DRM_FORMAT_RGB565
  else DRM_FORMAT_XRGB8888

/-- What the EGL and GL calls tested by `init_gl` report in one call of it. -/
structure EglOutcome where
  eglInitialize : Bool
  eglBindAPI : Bool
  eglChooseConfig : Bool
  n : Int
  context : Bool
  surface : Bool
  vertex_status : Int
  fragment_status : Int
  link_status : Int
  deriving DecidableEq, Repr

/-- The allocator and graphics side: whether the `call`-th `gbm_surface_create` (counted
from 0, with the width, height and format it is given) yields a surface, and what EGL and
GL report during the `call`-th `init_gl`. -/
structure Platform where
  gbm_surface_create : Nat → Nat → Nat → Nat → Bool
  egl : Nat → EglOutcome

/-- The values `main` leaves in the globals `all_display` and `connector_id` and in its
local `frame_count` after the option loop (`frame_count` is -1 when `-n` is not given). -/
structure Options where
  all_display : Nat
  connector_id : Int
  frame_count : Int
  deriving DecidableEq, Repr

/-- The function `init_gbm`, at its `call`-th call: the status, or `none` when the read
through `drm.mode[DISP_ID]` is undefined. -/
def init_gbm (p : Platform) (s : State) (call : Nat) : Option Int :=
  if MAX_DISPLAYS ≤ s.DISP_ID then none
  else
    match s.mode s.DISP_ID with
    | none => none
    | some m =>
      if p.gbm_surface_create call m.hdisplay m.vdisplay
          (drm_fmt_to_gbm_fmt (s.format s.DISP_ID)) then some 0
      else some (-1)

/-- The status returned by `init_gl`, from what EGL and GL report. -/
def init_gl (o : EglOutcome) : Int :=
  if !o.eglInitialize then -1
  else if !o.eglBindAPI then -1
  else if !o.eglChooseConfig || o.n != 1 then -1
  else if !o.context then -1
  else if !o.surface then -1
  else if o.vertex_status = 0 then -1
  else if o.fragment_status = 0 then -1
  else if o.link_status = 0 then -1
  else 0

/-- How far a run of `main` has come: it has returned `status` after `cycles` complete
passes of the loop, or it is still inside `while (1)` after `cycles` complete passes (the
iteration budget of the model is used up), or it is undefined. -/
inductive Run where
  | exited (status : Int) (cycles : Nat)
  | running (cycles : Nat)
  | undef
  deriving DecidableEq, Repr

/-- The loop `while (1)` compiled into `main` (the `TEST3` branch), followed for at most
`fuel` iterations: `init_gbm`, `init_gl`, `draw`, `eglSwapBuffers`, lock and release of the
front buffer, `exit_gl`, `exit_gbm`.  The only exits are the two `return ret`. -/
def main_loop (p : Platform) (s : State) : Nat → Nat → Run
  | 0, cycles => Run.running cycles
  | fuel + 1, cycles =>
    match init_gbm p s cycles with
    | none => Run.undef
    | some ret =>
      if ret ≠ 0 then Run.exited ret cycles
      else
        let ret1 := init_gl (p.egl cycles)
        if ret1 ≠ 0 then Run.exited ret1 cycles
        else main_loop p s fuel (cycles + 1)

/-- The function `main` after its option loop, on a fresh descriptor (capability
disabled): `init_drm`, the report of the primary display, then the loop. -/
def main (w : World) (p : Platform) (opts : Options) (fuel : Nat) : Run :=
  match init_drm w opts.connector_id opts.all_display (State.init 0) with
  | none => Run.undef
  | some (ret, s) =>
    if ret ≠ 0 then Run.exited ret 0
    else if MAX_DISPLAYS ≤ s.DISP_ID then Run.undef
    else
      match s.mode s.DISP_ID with
      | none => Run.undef
      | some _ => main_loop p s fuel 0

/-- A platform on which every surface creation and every EGL and GL call succeeds. -/
def ready_platform : Platform :=
  { gbm_surface_create := fun _ _ _ _ => true
    egl := fun _ =>
      { eglInitialize := true, eglBindAPI := true, eglChooseConfig := true, n := 1,
        context := true, surface := true, vertex_status := 1, fragment_status := 1,
        link_status := 1 } }

/-! ## Encoders and pipes of the recorded entries -/

/-- The encoder `enc` held by `init_drm` is an encoder of the device with its pipe
resolved: some `drmModeGetEncoder eid`, unchanged if the device reports a pipe for it, and
otherwise given the pipe found by the pipe loop; the pipe is not 0. -/
def ResolvedEncoder (w : World) (crtcs : List Nat) (enc : drmModeEncoder) : Prop :=
  enc.crtc_id ≠ 0 ∧
  ∃ eid : Nat,
    ((w.drmModeGetEncoder eid).crtc_id ≠ 0 ∧ enc = w.drmModeGetEncoder eid) ∨
    ((w.drmModeGetEncoder eid).crtc_id = 0 ∧
      enc = { w.drmModeGetEncoder eid with
        crtc_id := init_drm_find_crtc (w.drmModeGetEncoder eid).possible_crtcs crtcs 0 })

/-- The pipe identifiers enumerated by the device (none when `drmModeGetResources`
fails). -/
def World.crtcs (w : World) : List Nat :=
  match w.drmModeGetResources with
  | some resources => resources.crtcs
  | none => []

/-- The loop state of `init_drm` holds resolved encoders only: in the local `encoder` and
in every recorded slot, whose pipe is the pipe of its encoder. -/
def ResolvedEntries (w : World) (crtcs : List Nat) (ls : State × Option drmModeEncoder) :
    Prop :=
  (∀ e, ls.2 = some e → ResolvedEncoder w crtcs e) ∧
  ∀ i, i < ls.1.ndisp →
    ∃ e, ls.1.encoder i = some e ∧ ls.1.crtc_id i = e.crtc_id ∧ ResolvedEncoder w crtcs e

/-- Whether a loop body ran into undefined behaviour. -/
def Flow.isUndef {ρ σ : Type} : Flow ρ σ → Bool
  | Flow.undef => true
  | _ => false

/-! ## Concrete devices -/

/-- The bag of a plane of type `ty`: property 1 is named "type", property 2 "rotation". -/
def plane_props (ty : Nat) : drmModeObjectProperties :=
  { props := [(2, 0), (1, ty)] }

/-- A device given by its tables of connectors, encoders, pipes and planes.  Every plane
whose identifier is below 100 is a primary plane, the others are overlays. -/
def device (connectors : List drmModeConnector) (encoders : List drmModeEncoder)
    (crtcs : List drmModeCrtc) (planes : List drmModePlane) : World :=
  { drmOpen := fun m => if m = "i915" then 3 else -1
    drmModeGetResources :=
      some { connectors := connectors.map (fun c => c.connector_id),
             crtcs := crtcs.map (fun c => c.crtc_id) }
    drmModeGetConnector := fun id =>
      (connectors.find? (fun c => c.connector_id = id)).getD
        { connector_id := id, encoder_id := 0, connection := 2, encoders := [], modes := [] }
    drmModeGetEncoder := fun id =>
      (encoders.find? (fun e => e.encoder_id = id)).getD
        { encoder_id := id, crtc_id := 0, possible_crtcs := 0 }
    drmModeGetCrtc := fun id =>
      (crtcs.find? (fun c => c.crtc_id = id)).getD
        { crtc_id := id, x := 0, y := 0, width := 0, height := 0, mode_valid := 0 }
    drmModeGetPlaneResources := some (planes.map (fun p => p.plane_id))
    drmModeGetPlane := fun id => planes.find? (fun p => p.plane_id = id)
    drmModeObjectGetProperties := fun id =>
      some (plane_props (if id < 100 then DRM_PLANE_TYPE_PRIMARY else 0))
    drmModeGetProperty := fun id =>
      { prop_id := id, name := if id = 1 then "type" else "rotation" } }

/-- One connected output (connector 5, encoder 10, pipe 20) whose pipe reports a current
mode of 1920x1080; its primary plane 30 advertises `formats`. -/
def single_output (formats : List Nat) : World :=
  device
    [{ connector_id := 5, encoder_id := 10, connection := DRM_MODE_CONNECTED,
       encoders := [10],
       modes := [{ hdisplay := 1280, vdisplay := 720 }, { hdisplay := 1920, vdisplay := 1080 }] }]
    [{ encoder_id := 10, crtc_id := 20, possible_crtcs := 1 }]
    [{ crtc_id := 20, x := 0, y := 0, width := 1920, height := 1080, mode_valid := 1 }]
    [{ plane_id := 130, crtc_id := 20, formats := [DRM_FORMAT_XRGB8888] },
     { plane_id := 30, crtc_id := 20, formats := formats }]

/-- Two connected outputs: connector 5 at 1280x720 on pipe 20 and connector 7 at 1920x1080
on pipe 21, each with a primary plane advertising XRGB8888; connector 6 is disconnected. -/
def dual_output : World :=
  device
    [{ connector_id := 5, encoder_id := 10, connection := DRM_MODE_CONNECTED,
       encoders := [10], modes := [{ hdisplay := 1280, vdisplay := 720 }] },
     { connector_id := 6, encoder_id := 0, connection := 2,
       encoders := [12], modes := [] },
     { connector_id := 7, encoder_id := 11, connection := DRM_MODE_CONNECTED,
       encoders := [11], modes := [{ hdisplay := 1920, vdisplay := 1080 }] }]
    [{ encoder_id := 10, crtc_id := 20, possible_crtcs := 1 },
     { encoder_id := 11, crtc_id := 21, possible_crtcs := 2 },
     { encoder_id := 12, crtc_id := 0, possible_crtcs := 3 }]
    [{ crtc_id := 20, x := 0, y := 0, width := 1280, height := 720, mode_valid := 1 },
     { crtc_id := 21, x := 0, y := 0, width := 1920, height := 1080, mode_valid := 1 }]
    [{ plane_id := 30, crtc_id := 20, formats := [DRM_FORMAT_XRGB8888] },
     { plane_id := 31, crtc_id := 21, formats := [DRM_FORMAT_XRGB8888] }]

/-- The dual device with the primary plane of pipe 21 advertising NV12 only, a format
outside the priority list. -/
def dual_output_nv12 : World :=
  device
    [{ connector_id := 5, encoder_id := 10, connection := DRM_MODE_CONNECTED,
       encoders := [10], modes := [{ hdisplay := 1280, vdisplay := 720 }] },
     { connector_id := 7, encoder_id := 11, connection := DRM_MODE_CONNECTED,
       encoders := [11], modes := [{ hdisplay := 1920, vdisplay := 1080 }] }]
    [{ encoder_id := 10, crtc_id := 20, possible_crtcs := 1 },
     { encoder_id := 11, crtc_id := 21, possible_crtcs := 2 }]
    [{ crtc_id := 20, x := 0, y := 0, width := 1280, height := 720, mode_valid := 1 },
     { crtc_id := 21, x := 0, y := 0, width := 1920, height := 1080, mode_valid := 1 }]
    [{ plane_id := 30, crtc_id := 20, formats := [DRM_FORMAT_XRGB8888] },
     { plane_id := 31, crtc_id := 21, formats := [0x3231564e] }]

/-- Five connected outputs, connector `k` on encoder `10 + k` and pipe `20 + k` with the
primary plane `30 + k`, all at 1280x720. -/
def five_outputs : World :=
  device
    ([1, 2, 3, 4, 5].map (fun k =>
      { connector_id := k, encoder_id := 10 + k, connection := DRM_MODE_CONNECTED,
        encoders := [10 + k], modes := [{ hdisplay := 1280, vdisplay := 720 }] }))
    ([1, 2, 3, 4, 5].map (fun k =>
      { encoder_id := 10 + k, crtc_id := 20 + k, possible_crtcs := 31 }))
    ([1, 2, 3, 4, 5].map (fun k =>
      { crtc_id := 20 + k, x := 0, y := 0, width := 1280, height := 720, mode_valid := 1 }))
    ([1, 2, 3, 4, 5].map (fun k =>
      { plane_id := 30 + k, crtc_id := 20 + k, formats := [DRM_FORMAT_XRGB8888] }))

/-- Two connected outputs whose encoders 10 and 11 have no pipe assigned and can both
drive either of the pipes 20 and 21. -/
def free_encoders : World :=
  device
    [{ connector_id := 5, encoder_id := 0, connection := DRM_MODE_CONNECTED,
       encoders := [10], modes := [{ hdisplay := 1280, vdisplay := 720 }] },
     { connector_id := 7, encoder_id := 0, connection := DRM_MODE_CONNECTED,
       encoders := [11], modes := [{ hdisplay := 1920, vdisplay := 1080 }] }]
    [{ encoder_id := 10, crtc_id := 0, possible_crtcs := 3 },
     { encoder_id := 11, crtc_id := 0, possible_crtcs := 3 }]
    [{ crtc_id := 20, x := 0, y := 0, width := 0, height := 0, mode_valid := 0 },
     { crtc_id := 21, x := 0, y := 0, width := 0, height := 0, mode_valid := 0 }]
    [{ plane_id := 30, crtc_id := 20, formats := [DRM_FORMAT_XRGB8888] },
     { plane_id := 31, crtc_id := 21, formats := [DRM_FORMAT_XRGB8888] }]

/-- One connected output (connector 5) whose only encoder 10 has no pipe assigned and the
mask `possible_crtcs`; the pipes are 20 and 21, in this order. -/
def free_encoder (possible_crtcs : Nat) : World :=
  device
    [{ connector_id := 5, encoder_id := 0, connection := DRM_MODE_CONNECTED,
       encoders := [10], modes := [{ hdisplay := 1280, vdisplay := 720 }] }]
    [{ encoder_id := 10, crtc_id := 0, possible_crtcs := possible_crtcs }]
    [{ crtc_id := 20, x := 0, y := 0, width := 0, height := 0, mode_valid := 0 },
     { crtc_id := 21, x := 0, y := 0, width := 0, height := 0, mode_valid := 0 }]
    [{ plane_id := 30, crtc_id := 20, formats := [DRM_FORMAT_XRGB8888] },
     { plane_id := 31, crtc_id := 21, formats := [DRM_FORMAT_XRGB8888] }]

/-- The dual device with its outputs enumerated in the other order: connector 7 at
1920x1080 first, connector 5 at 1280x720 second. -/
def dual_output_swapped : World :=
  device
    [{ connector_id := 7, encoder_id := 11, connection := DRM_MODE_CONNECTED,
       encoders := [11], modes := [{ hdisplay := 1920, vdisplay := 1080 }] },
     { connector_id := 5, encoder_id := 10, connection := DRM_MODE_CONNECTED,
       encoders := [10], modes := [{ hdisplay := 1280, vdisplay := 720 }] }]
    [{ encoder_id := 10, crtc_id := 20, possible_crtcs := 1 },
     { encoder_id := 11, crtc_id := 21, possible_crtcs := 2 }]
    [{ crtc_id := 20, x := 0, y := 0, width := 1280, height := 720, mode_valid := 1 },
     { crtc_id := 21, x := 0, y := 0, width := 1920, height := 1080, mode_valid := 1 }]
    [{ plane_id := 30, crtc_id := 20, formats := [DRM_FORMAT_XRGB8888] },
     { plane_id := 31, crtc_id := 21, formats := [DRM_FORMAT_XRGB8888] }]

/-- A bag whose property 1, named "type" on the concrete devices, carries the 64-bit value
2^32 + 5, behind property 2 ("rotation"). -/
def wide_props : drmModeObjectProperties :=
  { props := [(2, 0), (1, 4294967301)] }

/-- What a run of `init_drm` leaves to look at: the status, `drm.ndisp`, `DISP_ID`, and
the connector identifiers and formats of the first two slots. -/
def summary (r : Option (Int × State)) : Option (Int × Nat × Nat × List Nat × List Nat) :=
  r.map (fun x => (x.1, x.2.ndisp, x.2.DISP_ID,
    [x.2.connector_id 0, x.2.connector_id 1], [x.2.format 0, x.2.format 1]))

/-! ## Slots and runs -/

theorem store_same {α : Type} (arr : Nat → α) (i : Nat) (v : α) : store arr i v i = v := by
  simp [store]

theorem store_other {α : Type} (arr : Nat → α) (i j : Nat) (v : α) (h : j ≠ i) :
    store arr i v j = arr j := by
  simp [store, h]

/-- A run known to return `c` returns `c` with its final state. -/
theorem final_state_eq {ρ : Type} (r : Option (ρ × State)) (c : ρ)
    (h : r.map Prod.fst = some c) : r = some (c, final_state r) := by
  cases r with
  | none => cases h
  | some x =>
    obtain ⟨c1, s⟩ := x
    simp only [Option.map_some', Option.some.injEq] at h
    subst h
    rfl

/-! ## Property lookup: facts -/

theorem get_drm_prop_val_scan_absent (w : World) (name : String) :
    ∀ (l : List (Nat × Nat)) (i : Nat),
      (∀ e ∈ l, (w.drmModeGetProperty e.1).name ≠ name) →
      (get_drm_prop_val_scan w name l i).1 = 0 := by
  intro l
  induction l with
  | nil => intro i _; rfl
  | cons e rest ih =>
    intro i h
    have he : (w.drmModeGetProperty e.1).name ≠ name := h e (List.mem_cons_self _ _)
    simp only [get_drm_prop_val_scan, he, if_false]
    exact ih (i + 1) (fun e' he' => h e' (List.mem_cons_of_mem _ he'))

theorem get_drm_prop_val_scan_present (w : World) (name : String) :
    ∀ (l : List (Nat × Nat)) (i : Nat),
      (∀ e ∈ l, (w.drmModeGetProperty e.1).prop_id ≠ 0) →
      (∃ e ∈ l, (w.drmModeGetProperty e.1).name = name) →
      ∃ (k : Nat) (e : Nat × Nat), l[k]? = some e ∧ (w.drmModeGetProperty e.1).name = name ∧
        (∀ (j : Nat) (e' : Nat × Nat), j < k → l[j]? = some e' →
          (w.drmModeGetProperty e'.1).name ≠ name) ∧
        (get_drm_prop_val_scan w name l i).1 ≠ 0 ∧
        (get_drm_prop_val_scan w name l i).2 = i + k := by
  intro l
  induction l with
  | nil => intro i _ h; obtain ⟨e, he, _⟩ := h; cases he
  | cons e rest ih =>
    intro i hid hex
    by_cases he : (w.drmModeGetProperty e.1).name = name
    · refine ⟨0, e, by simp, he, ?_, ?_, ?_⟩
      · intro j e' hj; omega
      · simp only [get_drm_prop_val_scan, he, if_true]
        exact hid e (List.mem_cons_self _ _)
      · simp only [get_drm_prop_val_scan, he, if_true]; rfl
    · have hex' : ∃ e' ∈ rest, (w.drmModeGetProperty e'.1).name = name := by
        obtain ⟨e', he', hn⟩ := hex
        rcases List.mem_cons.mp he' with h | h
        · subst h; exact absurd hn he
        · exact ⟨e', h, hn⟩
      obtain ⟨k, e', hk, hn, hfirst, h1, h2⟩ :=
        ih (i + 1) (fun x hx => hid x (List.mem_cons_of_mem _ hx)) hex'
      refine ⟨k + 1, e', by simpa using hk, hn, ?_, ?_, ?_⟩
      · intro j x hj hx
        cases j with
        | zero =>
          simp only [List.getElem?_cons_zero, Option.some.injEq] at hx
          subst hx; exact he
        | succ j =>
          simp only [List.getElem?_cons_succ] at hx
          exact hfirst j x (by omega) hx
      · simp only [get_drm_prop_val_scan, he, if_false]; exact h1
      · simp only [get_drm_prop_val_scan, he, if_false]; omega

/-- Counterexample to C10: the first property named "type" of the bag carries the value
2^32 + 5 at index 1, all property identifiers are non-zero, and `get_drm_prop_val` returns 0
with 5 stored in `*p_val`, not the value at that index. -/
theorem get_drm_prop_val_truncates_value :
    (∀ e ∈ wide_props.props, (dual_output.drmModeGetProperty e.1).prop_id ≠ 0) ∧
    wide_props.props[1]? = some (1, 4294967301) ∧
    (dual_output.drmModeGetProperty 1).name = "type" ∧
    (dual_output.drmModeGetProperty 2).name ≠ "type" ∧
    get_drm_prop_val dual_output wide_props "type" 77 = (0, 5) ∧
    (get_drm_prop_val dual_output wide_props "type" 77).2 ≠ 4294967301 :=
  ⟨by decide, by decide, by decide, by decide, by decide, by decide⟩

/-- C10, amended: for a bag whose property identifiers are non-zero (the source's
"Property ID should always be > 0"), `get_drm_prop_val` returns 0 exactly when a property
of the requested name exists, and then stores the value found at the index of the first
such property converted to the `unsigned int` of the out-parameter, that is modulo 2^32
(the value itself when it is below 2^32); otherwise it returns -1 and leaves `*p_val` as it
was. -/
theorem get_drm_prop_val_first_match (w : World) (props : drmModeObjectProperties)
    (name : String) (p_val : Nat)
    (hid : ∀ e ∈ props.props, (w.drmModeGetProperty e.1).prop_id ≠ 0) :
    ((∃ e ∈ props.props, (w.drmModeGetProperty e.1).name = name) →
      ∃ (k : Nat) (e : Nat × Nat),
        props.props[k]? = some e ∧ (w.drmModeGetProperty e.1).name = name ∧
        (∀ (j : Nat) (e' : Nat × Nat), j < k → props.props[j]? = some e' →
          (w.drmModeGetProperty e'.1).name ≠ name) ∧
        get_drm_prop_val w props name p_val = (0, e.2 % 4294967296) ∧
        (e.2 < 4294967296 → get_drm_prop_val w props name p_val = (0, e.2))) ∧
    ((¬ ∃ e ∈ props.props, (w.drmModeGetProperty e.1).name = name) →
      get_drm_prop_val w props name p_val = (-1, p_val)) := by
  constructor
  · intro hex
    obtain ⟨k, e, hk, hn, hfirst, h1, h2⟩ :=
      get_drm_prop_val_scan_present w name props.props 0 hid hex
    have hval : get_drm_prop_val w props name p_val = (0, e.2 % 4294967296) := by
      simp only [get_drm_prop_val, h1, if_false, h2, Nat.zero_add,
        List.getD_eq_getElem?_getD, hk, Option.getD_some]
    refine ⟨k, e, hk, hn, hfirst, hval, ?_⟩
    intro hlt
    rw [hval, Nat.mod_eq_of_lt hlt]
  · intro hno
    have h0 : (get_drm_prop_val_scan w name props.props 0).1 = 0 :=
      get_drm_prop_val_scan_absent w name props.props 0
        (fun e he hn => hno ⟨e, he, hn⟩)
    simp only [get_drm_prop_val, h0, if_true]

/-- Witness for C10, amended, on the bag of a primary plane: "type" is found at index 1
behind "rotation", "gamma" is not found. -/
theorem get_drm_prop_val_first_match_witness :
    (∀ e ∈ (plane_props 1).props, (dual_output.drmModeGetProperty e.1).prop_id ≠ 0) ∧
    (∃ (k : Nat) (e : Nat × Nat), (plane_props 1).props[k]? = some e ∧
      get_drm_prop_val dual_output (plane_props 1) "type" 77 = (0, e.2 % 4294967296)) ∧
    get_drm_prop_val dual_output (plane_props 1) "type" 77 = (0, 1) ∧
    get_drm_prop_val dual_output (plane_props 1) "gamma" 77 = (-1, 77) :=
  ⟨by decide,
   (let ⟨k, e, hk, _, _, hv, _⟩ :=
      (get_drm_prop_val_first_match dual_output (plane_props 1) "type" 77 (by decide)).1
        (by decide)
    ⟨k, e, hk, hv⟩),
   by decide,
   (get_drm_prop_val_first_match dual_output (plane_props 1) "gamma" 77 (by decide)).2
     (by decide)⟩

/-! ## Plane format negotiation: facts -/

theorem search_plane_format_iff (d : Nat) (formats : List Nat) :
    search_plane_format d formats = true ↔ d ∈ formats := by
  induction formats with
  | nil => simp [search_plane_format]
  | cons f fs ih =>
    by_cases h : d = f
    · simp [search_plane_format, h]
    · simp [search_plane_format, h, ih]

theorem set_drm_format_pick_some (formats : List Nat) :
    ∀ (candidates : List Nat) (f : Nat),
      set_drm_format_pick formats candidates = some f →
      ∃ k : Nat, candidates[k]? = some f ∧ f ∈ formats ∧
        ∀ (j c : Nat), j < k → candidates[j]? = some c → c ∉ formats := by
  intro candidates
  induction candidates with
  | nil => intro f h; simp [set_drm_format_pick] at h
  | cons c cs ih =>
    intro f h
    by_cases hc : search_plane_format c formats = true
    · simp only [set_drm_format_pick, hc, if_true, Option.some.injEq] at h
      subst h
      exact ⟨0, by simp, (search_plane_format_iff _ _).mp hc, fun j _ hj => by omega⟩
    · simp only [set_drm_format_pick, hc] at h
      obtain ⟨k, hk, hf, hfirst⟩ := ih f h
      refine ⟨k + 1, by simpa using hk, hf, ?_⟩
      intro j x hj hx
      cases j with
      | zero =>
        simp only [List.getElem?_cons_zero, Option.some.injEq] at hx
        subst hx
        exact fun hmem => hc ((search_plane_format_iff _ _).mpr hmem)
      | succ j =>
        simp only [List.getElem?_cons_succ] at hx
        exact hfirst j x (by omega) hx

theorem get_drm_prop_val_status (w : World) (props : drmModeObjectProperties)
    (name : String) (p_val : Nat) (h : ¬ (get_drm_prop_val w props name p_val).1 < 0) :
    (get_drm_prop_val w props name p_val).1 = 0 := by
  unfold get_drm_prop_val at h ⊢
  by_cases h0 : (get_drm_prop_val_scan w name props.props 0).1 = 0
  · simp [h0] at h
  · simp [h0]

/-- A plane the loop passes over leaves the state as it was. -/
theorem set_drm_format_plane_next (w : World) (s s' : State) (id : Nat)
    (h : set_drm_format_plane w s id = Flow.next s') : s' = s := by
  unfold set_drm_format_plane at h
  split at h
  · cases h; rfl
  · split at h
    · cases h; rfl
    · simp only at h
      split_ifs at h
      all_goals first
        | (cases h; rfl)
        | (split at h <;> first | (cases h; rfl) | cases h)

/-- What the loop body has done when it returns: it is at a primary plane that was bound to
the pipe, or unbound and taken for it, and it stored the first candidate of the priority
list that the plane advertises. -/
theorem set_drm_format_plane_ret (w : World) (s s' : State) (id : Nat) (b : Bool)
    (h : set_drm_format_plane w s id = Flow.ret b s') :
    b = true ∧
    ∃ (plane : drmModePlane) (props : drmModeObjectProperties) (f : Nat),
      w.drmModeGetPlane id = some plane ∧
      w.drmModeObjectGetProperties plane.plane_id = some props ∧
      get_drm_prop_val w props "type" 0 = (0, DRM_PLANE_TYPE_PRIMARY) ∧
      (plane.crtc_id = 0 ∨ plane.crtc_id = s.crtc_id s.ndisp) ∧
      s.ndisp < MAX_DISPLAYS ∧
      set_drm_format_pick plane.formats drm_formats = some f ∧
      s' = { s with format := store s.format s.ndisp f } := by
  unfold set_drm_format_plane at h
  split at h
  · cases h
  · rename_i plane hp
    split at h
    · cases h
    · rename_i props hprops
      simp only at h
      by_cases h1 : (get_drm_prop_val w props "type" 0).1 < 0
      · rw [if_pos h1] at h; cases h
      · rw [if_neg h1] at h
        by_cases h2 : (get_drm_prop_val w props "type" 0).2 ≠ DRM_PLANE_TYPE_PRIMARY
        · rw [if_pos h2] at h; cases h
        · rw [if_neg h2] at h
          by_cases h3 : MAX_DISPLAYS ≤ s.ndisp
          · rw [if_pos h3] at h; cases h
          · rw [if_neg h3] at h
            have hty : get_drm_prop_val w props "type" 0 = (0, DRM_PLANE_TYPE_PRIMARY) :=
              Prod.ext (get_drm_prop_val_status w props "type" 0 h1) (not_not.mp h2)
            by_cases h4 : plane.crtc_id = 0
            · simp only [h4, if_true] at h
              cases hpick : set_drm_format_pick plane.formats drm_formats with
              | none => rw [hpick] at h; cases h
              | some f =>
                rw [hpick] at h
                cases h
                exact ⟨rfl, plane, props, f, hp, hprops, hty, Or.inl h4, Nat.lt_of_not_le h3,
                  hpick, rfl⟩
            · simp only [h4, if_false] at h
              by_cases h5 : plane.crtc_id = s.crtc_id s.ndisp
              · rw [if_pos h5] at h
                cases hpick : set_drm_format_pick plane.formats drm_formats with
                | none => rw [hpick] at h; cases h
                | some f =>
                  rw [hpick] at h
                  cases h
                  exact ⟨rfl, plane, props, f, hp, hprops, hty, Or.inr h5, Nat.lt_of_not_le h3,
                    hpick, rfl⟩
              · rw [if_neg h5] at h; cases h

theorem set_drm_format_planes_next (w : World) :
    ∀ (planes : List Nat) (s s' : State),
      set_drm_format_planes w s planes = Flow.next s' → s' = s := by
  intro planes
  induction planes with
  | nil => intro s s' h; simp only [set_drm_format_planes] at h; cases h; rfl
  | cons id rest ih =>
    intro s s' h
    simp only [set_drm_format_planes] at h
    split at h
    · rename_i s1 h1
      rw [ih s1 s' h, set_drm_format_plane_next w s s1 id h1]
    · cases h
    · cases h

theorem set_drm_format_planes_ret (w : World) :
    ∀ (planes : List Nat) (s s' : State) (b : Bool),
      set_drm_format_planes w s planes = Flow.ret b s' →
      ∃ id ∈ planes, set_drm_format_plane w s id = Flow.ret b s' := by
  intro planes
  induction planes with
  | nil => intro s s' b h; simp only [set_drm_format_planes] at h; cases h
  | cons id rest ih =>
    intro s s' b h
    simp only [set_drm_format_planes] at h
    split at h
    · rename_i s1 h1
      have hs : s1 = s := set_drm_format_plane_next w s s1 id h1
      subst hs
      obtain ⟨id', hmem, hr⟩ := ih _ s' b h
      exact ⟨id', List.mem_cons_of_mem _ hmem, hr⟩
    · rename_i r s1 h1
      cases h
      exact ⟨id, List.mem_cons_self _ _, h1⟩
    · cases h

/-- The two ways `set_drm_format` returns: with `false` and nothing but the capability
touched, or with `true` after the loop body returned at an enumerated plane. -/
theorem set_drm_format_spec (w : World) (s s' : State) (b : Bool)
    (h : set_drm_format w s = some (b, s')) :
    (b = false ∧ s' = { s with universal_planes := 0 }) ∨
    (b = true ∧
      ∃ (planes : List Nat) (id : Nat) (plane : drmModePlane)
        (props : drmModeObjectProperties) (f : Nat),
        w.drmModeGetPlaneResources = some planes ∧ id ∈ planes ∧
        w.drmModeGetPlane id = some plane ∧
        w.drmModeObjectGetProperties plane.plane_id = some props ∧
        get_drm_prop_val w props "type" 0 = (0, DRM_PLANE_TYPE_PRIMARY) ∧
        (plane.crtc_id = 0 ∨ plane.crtc_id = s.crtc_id s.ndisp) ∧
        s.ndisp < MAX_DISPLAYS ∧
        set_drm_format_pick plane.formats drm_formats = some f ∧
        s' = { s with format := store s.format s.ndisp f, universal_planes := 0 }) := by
  unfold set_drm_format at h
  simp only at h
  split at h
  · cases h; exact Or.inl ⟨rfl, rfl⟩
  · rename_i planes hplanes
    split at h
    · cases h
    · rename_i found s2 hr
      cases h
      obtain ⟨id, hmem, hstep⟩ := set_drm_format_planes_ret w planes _ _ _ hr
      obtain ⟨hb, plane, props, f, hp, hprops, hty, hcrtc, hn, hpick, hs⟩ :=
        set_drm_format_plane_ret w _ _ id _ hstep
      subst hs
      exact Or.inr ⟨hb, planes, id, plane, props, f, hplanes, hmem, hp, hprops, hty, hcrtc,
        hn, hpick, rfl⟩
    · rename_i s2 hr
      cases h
      have hs := set_drm_format_planes_next w planes _ _ hr
      subst hs
      exact Or.inl ⟨rfl, rfl⟩

/-- C1: whenever `set_drm_format` succeeds, it has stopped at an enumerated primary plane
bound to the pipe `drm.crtc_id[drm.ndisp]` (or unbound and taken for it), and the format it
commits in `drm.format[drm.ndisp]` is the earliest entry of the priority list
[XRGB8888, ARGB8888, RGB565] that occurs in that plane's format list: it is in both lists
and no earlier candidate is advertised.  For plane formats {RGB565} it is RGB565, for
{ARGB8888, RGB565} it is ARGB8888. -/
theorem set_drm_format_commits_first_supported (w : World) (s s' : State)
    (h : set_drm_format w s = some (true, s')) :
    ∃ (planes : List Nat) (id : Nat) (plane : drmModePlane)
      (props : drmModeObjectProperties) (k : Nat),
      w.drmModeGetPlaneResources = some planes ∧ id ∈ planes ∧
      w.drmModeGetPlane id = some plane ∧
      w.drmModeObjectGetProperties plane.plane_id = some props ∧
      get_drm_prop_val w props "type" 0 = (0, DRM_PLANE_TYPE_PRIMARY) ∧
      (plane.crtc_id = 0 ∨ plane.crtc_id = s.crtc_id s.ndisp) ∧
      [DRM_FORMAT_XRGB8888, DRM_FORMAT_ARGB8888, DRM_FORMAT_RGB565][k]? =
        some (s'.format s.ndisp) ∧
      s'.format s.ndisp ∈ drm_formats ∧
      s'.format s.ndisp ∈ plane.formats ∧
      (∀ (j c : Nat), j < k → drm_formats[j]? = some c → c ∉ plane.formats) ∧
      (plane.formats = [DRM_FORMAT_RGB565] → s'.format s.ndisp = DRM_FORMAT_RGB565) ∧
      (plane.formats = [DRM_FORMAT_ARGB8888, DRM_FORMAT_RGB565] →
        s'.format s.ndisp = DRM_FORMAT_ARGB8888) := by
  rcases set_drm_format_spec w s s' true h with ⟨hb, _⟩ | ⟨_, planes, id, plane, props, f,
    hplanes, hmem, hp, hprops, hty, hcrtc, _, hpick, hs⟩
  · cases hb
  · obtain ⟨k, hk, hf, hfirst⟩ := set_drm_format_pick_some plane.formats drm_formats f hpick
    have hfmt : s'.format s.ndisp = f := by rw [hs]; exact store_same _ _ _
    rw [hfmt]
    refine ⟨planes, id, plane, props, k, hplanes, hmem, hp, hprops, hty, hcrtc, hk,
      List.getElem?_mem hk, hf, hfirst, ?_, ?_⟩
    · intro hfs
      rw [hfs] at hpick
      have : set_drm_format_pick [DRM_FORMAT_RGB565] drm_formats = some DRM_FORMAT_RGB565 := by
        decide
      rw [this] at hpick
      exact (Option.some.inj hpick).symm
    · intro hfs
      rw [hfs] at hpick
      have : set_drm_format_pick [DRM_FORMAT_ARGB8888, DRM_FORMAT_RGB565] drm_formats =
          some DRM_FORMAT_ARGB8888 := by decide
      rw [this] at hpick
      exact (Option.some.inj hpick).symm

/-- Witness for C1: the end-to-end device with plane formats {ARGB8888, RGB565} commits
ARGB8888 for pipe 20. -/
theorem set_drm_format_commits_first_supported_witness :
    set_drm_format (single_output [DRM_FORMAT_ARGB8888, DRM_FORMAT_RGB565]) (pipe_state 20 0) =
      some (true, final_state
        (set_drm_format (single_output [DRM_FORMAT_ARGB8888, DRM_FORMAT_RGB565])
          (pipe_state 20 0))) ∧
    (final_state (set_drm_format (single_output [DRM_FORMAT_ARGB8888, DRM_FORMAT_RGB565])
      (pipe_state 20 0))).format 0 = DRM_FORMAT_ARGB8888 ∧
    (final_state (set_drm_format (single_output [DRM_FORMAT_RGB565])
      (pipe_state 20 0))).format 0 = DRM_FORMAT_RGB565 ∧
    ∃ (plane : drmModePlane),
      (final_state (set_drm_format (single_output [DRM_FORMAT_ARGB8888, DRM_FORMAT_RGB565])
        (pipe_state 20 0))).format 0 ∈ plane.formats :=
  ⟨final_state_eq _ true (by decide), by decide, by decide,
   (let ⟨_, _, plane, _, _, _, _, _, _, _, _, _, _, hmem, _⟩ :=
      set_drm_format_commits_first_supported
        (single_output [DRM_FORMAT_ARGB8888, DRM_FORMAT_RGB565]) (pipe_state 20 0)
        (final_state (set_drm_format (single_output [DRM_FORMAT_ARGB8888, DRM_FORMAT_RGB565])
          (pipe_state 20 0)))
        (final_state_eq _ true (by decide))
    ⟨plane, hmem⟩)⟩

theorem set_drm_format_plane_undef (w : World) (s : State) (id : Nat)
    (h : set_drm_format_plane w s id = Flow.undef) : MAX_DISPLAYS ≤ s.ndisp := by
  unfold set_drm_format_plane at h
  split at h
  · cases h
  · split at h
    · cases h
    · simp only at h
      split_ifs at h with h1 h2 h3
      all_goals first
        | exact h3
        | cases h
        | (split at h <;> cases h)

theorem set_drm_format_planes_undef (w : World) :
    ∀ (planes : List Nat) (s : State),
      set_drm_format_planes w s planes = Flow.undef → MAX_DISPLAYS ≤ s.ndisp := by
  intro planes
  induction planes with
  | nil => intro s h; simp only [set_drm_format_planes] at h; cases h
  | cons id rest ih =>
    intro s h
    simp only [set_drm_format_planes] at h
    split at h
    · rename_i s1 h1
      have hs : s1 = s := set_drm_format_plane_next w s s1 id h1
      subst hs
      exact ih _ h
    · cases h
    · rename_i h1
      exact set_drm_format_plane_undef w s id h1

/-- While `drm.ndisp` is below `MAX_DISPLAYS`, `set_drm_format` returns. -/
theorem set_drm_format_returns (w : World) (s : State) (hn : s.ndisp < MAX_DISPLAYS) :
    ∃ (r : Bool) (s' : State), set_drm_format w s = some (r, s') := by
  unfold set_drm_format
  simp only
  split
  · exact ⟨_, _, rfl⟩
  · rename_i planes _
    split
    · rename_i hu
      have := set_drm_format_planes_undef w planes _ hu
      simp only [drmSetClientCap] at this
      omega
    · exact ⟨_, _, rfl⟩
    · exact ⟨_, _, rfl⟩

/-- Counterexample to C8: entered with the universal-plane capability enabled,
`set_drm_format` succeeds and returns with the capability disabled. -/
theorem set_drm_format_clears_enabled_capability :
    (pipe_state 20 1).universal_planes = 1 ∧
    set_drm_format (single_output [DRM_FORMAT_RGB565]) (pipe_state 20 1) =
      some (true, final_state
        (set_drm_format (single_output [DRM_FORMAT_RGB565]) (pipe_state 20 1))) ∧
    (final_state (set_drm_format (single_output [DRM_FORMAT_RGB565])
      (pipe_state 20 1))).universal_planes = 0 ∧
    (final_state (set_drm_format (single_output [DRM_FORMAT_RGB565])
      (pipe_state 20 1))).universal_planes ≠ (pipe_state 20 1).universal_planes :=
  ⟨by decide, final_state_eq _ true (by decide), by decide, by decide⟩

/-- C8, amended: `set_drm_format` returns whenever `drm.ndisp` is below `MAX_DISPLAYS`, and
for every initial value of the universal-plane capability and every outcome (success, no
matching plane or format, enumeration failure) the capability is disabled (0) when it
returns; so its value equals the value before the call exactly when it was disabled
before. -/
theorem set_drm_format_leaves_capability_disabled (w : World) (s : State) :
    (s.ndisp < MAX_DISPLAYS → ∃ (r : Bool) (s' : State), set_drm_format w s = some (r, s')) ∧
    ∀ (r : Bool) (s' : State), set_drm_format w s = some (r, s') →
      s'.universal_planes = 0 ∧
      (s'.universal_planes = s.universal_planes ↔ s.universal_planes = 0) := by
  refine ⟨set_drm_format_returns w s, ?_⟩
  intro r s' h
  have h0 : s'.universal_planes = 0 := by
    rcases set_drm_format_spec w s s' r h with ⟨_, hs⟩ | ⟨_, _, _, _, _, _, _, _, _, _, _, _,
      _, _, hs⟩
    · rw [hs]
    · rw [hs]
  refine ⟨h0, ?_⟩
  rw [h0]
  exact ⟨fun h => h.symm, fun h => h.symm⟩

/-- Witness for C8 on the three outcomes: success with the capability enabled before,
no matching format, and a device whose plane enumeration fails. -/
theorem set_drm_format_leaves_capability_disabled_witness :
    (pipe_state 20 1).ndisp < MAX_DISPLAYS ∧
    set_drm_format (single_output [DRM_FORMAT_RGB565]) (pipe_state 20 1) =
      some (true, final_state
        (set_drm_format (single_output [DRM_FORMAT_RGB565]) (pipe_state 20 1))) ∧
    (final_state (set_drm_format (single_output [DRM_FORMAT_RGB565])
      (pipe_state 20 1))).universal_planes = 0 ∧
    (final_state (set_drm_format (single_output []) (pipe_state 20 1))).universal_planes = 0 ∧
    (final_state (set_drm_format
      { single_output [] with drmModeGetPlaneResources := none }
      (pipe_state 20 0))).universal_planes = 0 :=
  ⟨by decide, final_state_eq _ true (by decide),
   ((set_drm_format_leaves_capability_disabled (single_output [DRM_FORMAT_RGB565])
      (pipe_state 20 1)).2 true
      (final_state (set_drm_format (single_output [DRM_FORMAT_RGB565]) (pipe_state 20 1)))
      (final_state_eq _ true (by decide))).1,
   by decide, by decide⟩

/-! ## Discovery: one connector -/

/-- The encoder loop changes nothing of the connector but its `encoder_id`. -/
theorem init_drm_encoders_connector (w : World) (crtcs : List Nat) :
    ∀ (ids : List Nat) (connector : drmModeConnector) (enc : Option drmModeEncoder),
      (init_drm_encoders w crtcs connector enc ids).1.connector_id = connector.connector_id ∧
      (init_drm_encoders w crtcs connector enc ids).1.connection = connector.connection ∧
      (init_drm_encoders w crtcs connector enc ids).1.modes = connector.modes := by
  intro ids
  induction ids with
  | nil => intro connector enc; exact ⟨rfl, rfl, rfl⟩
  | cons id rest ih =>
    intro connector enc
    simp only [init_drm_encoders]
    split_ifs <;> first
      | exact ⟨rfl, rfl, rfl⟩
      | (obtain ⟨h1, h2, h3⟩ := ih _ none; exact ⟨h1, h2, h3⟩)

/-- The primary-display tracking of the model is one round of `init_drm_track_step` on the
slots, followed by the increment of `drm.ndisp`. -/
theorem init_drm_primary_some (c : Int) (a : Nat) (s s' : State) (cur : drmModeModeInfo)
    (hcur : s.mode s.ndisp = some cur)
    (h : init_drm_primary c a s cur = some s') :
    s' = { s with
      DISP_ID := init_drm_track_step c a s.connector_id s.mode s.ndisp s.DISP_ID
      ndisp := s.ndisp + 1 } := by
  unfold init_drm_primary at h
  unfold init_drm_track_step
  simp only at h ⊢
  generalize (if c ≠ -1 ∧ (c % 4294967296).toNat = s.connector_id s.ndisp
    then s.ndisp % 256 else s.DISP_ID) = d1 at h ⊢
  by_cases ha : a ≠ 0
  · rw [if_pos ha] at h ⊢
    split_ifs at h with h1
    split at h
    · cases h
    · rename_i prim hprim
      simp only [hprim, hcur]
      cases h; rfl
  · rw [if_neg ha] at h ⊢
    cases h; rfl

/-- How the loop body falls through to the next connector: without touching the globals
(connector not connected, or no encoder resolved), or after recording one display in the
slots at `drm.ndisp`. -/
theorem init_drm_connector_next (w : World) (c : Int) (a : Nat) (crtcs : List Nat)
    (ls ls1 : State × Option drmModeEncoder) (id : Nat)
    (h : init_drm_connector w c a crtcs ls id = Flow.next ls1) :
    ls1.1 = ls.1 ∨
    ∃ (encoder : drmModeEncoder) (f : Nat) (m : drmModeModeInfo),
      (w.drmModeGetConnector id).connection = DRM_MODE_CONNECTED ∧
      (init_drm_encoders w crtcs (w.drmModeGetConnector id) ls.2
        (w.drmModeGetConnector id).encoders).2 = some encoder ∧
      ls.1.ndisp < MAX_DISPLAYS ∧ f ∈ drm_formats ∧
      init_drm_mode (w.drmModeGetCrtc encoder.crtc_id)
        (init_drm_encoders w crtcs (w.drmModeGetConnector id) ls.2
          (w.drmModeGetConnector id).encoders).1 = some m ∧
      ls1 = ({ (init_drm_record w ls.1
          (init_drm_encoders w crtcs (w.drmModeGetConnector id) ls.2
            (w.drmModeGetConnector id).encoders).1 encoder) with
        format := store ls.1.format ls.1.ndisp f
        universal_planes := 0
        DISP_ID := init_drm_track_step c a
          (init_drm_record w ls.1
            (init_drm_encoders w crtcs (w.drmModeGetConnector id) ls.2
              (w.drmModeGetConnector id).encoders).1 encoder).connector_id
          (init_drm_record w ls.1
            (init_drm_encoders w crtcs (w.drmModeGetConnector id) ls.2
              (w.drmModeGetConnector id).encoders).1 encoder).mode
          ls.1.ndisp ls.1.DISP_ID
        ndisp := ls.1.ndisp + 1 }, some encoder) := by
  unfold init_drm_connector at h
  simp only at h
  by_cases hconn : (w.drmModeGetConnector id).connection = DRM_MODE_CONNECTED
  · rw [if_pos hconn] at h
    generalize hR : init_drm_encoders w crtcs (w.drmModeGetConnector id) ls.2
      (w.drmModeGetConnector id).encoders = R at h ⊢
    cases henc : R.2 with
    | none => simp only [henc] at h; cases h; exact Or.inl rfl
    | some encoder =>
      simp only [henc] at h
      by_cases hn : MAX_DISPLAYS ≤ ls.1.ndisp
      · rw [if_pos hn] at h; cases h
      · rw [if_neg hn] at h
        cases hfmt : set_drm_format w (init_drm_record w ls.1 R.1 encoder) with
        | none => simp only [hfmt] at h; cases h
        | some r =>
          obtain ⟨b, s2⟩ := r
          cases b with
          | false => simp only [hfmt] at h; cases h
          | true =>
            simp only [hfmt] at h
            rcases set_drm_format_spec w _ s2 true hfmt with ⟨hb, _⟩ |
              ⟨_, planes, pid, plane, props, f, _, _, _, _, _, _, _, hpick, hs2⟩
            · cases hb
            · obtain ⟨k, hk, _, _⟩ := set_drm_format_pick_some _ _ _ hpick
              have hf : f ∈ drm_formats := List.getElem?_mem hk
              have hmode : s2.mode s2.ndisp =
                  init_drm_mode (w.drmModeGetCrtc encoder.crtc_id) R.1 := by
                rw [hs2]; exact store_same _ _ _
              cases hcur : s2.mode s2.ndisp with
              | none => simp only [hcur] at h; cases h
              | some cur =>
                simp only [hcur] at h
                cases hprim : init_drm_primary c a s2 cur with
                | none => simp only [hprim] at h; cases h
                | some s3 =>
                  simp only [hprim] at h
                  cases h
                  have hs3 := init_drm_primary_some c a s2 s3 cur hcur hprim
                  refine Or.inr ⟨encoder, f, cur, hconn, rfl, Nat.lt_of_not_le hn, hf,
                    by rw [← hmode, hcur], ?_⟩
                  rw [hs3, hs2]
                  rfl
  · rw [if_neg hconn] at h
    cases h
    exact Or.inl rfl

/-- How the loop body returns from `init_drm`: with -1, after `set_drm_format` failed on
the slots just written; `drm.ndisp` and the slots below it are as before. -/
theorem init_drm_connector_ret (w : World) (c : Int) (a : Nat) (crtcs : List Nat)
    (ls ls1 : State × Option drmModeEncoder) (id : Nat) (code : Int)
    (h : init_drm_connector w c a crtcs ls id = Flow.ret code ls1) :
    code = -1 ∧
    ∃ (encoder : drmModeEncoder),
      (w.drmModeGetConnector id).connection = DRM_MODE_CONNECTED ∧
      (init_drm_encoders w crtcs (w.drmModeGetConnector id) ls.2
        (w.drmModeGetConnector id).encoders).2 = some encoder ∧
      ls.1.ndisp < MAX_DISPLAYS ∧
      set_drm_format w (init_drm_record w ls.1
        (init_drm_encoders w crtcs (w.drmModeGetConnector id) ls.2
          (w.drmModeGetConnector id).encoders).1 encoder) = some (false, ls1.1) ∧
      ls1 = ({ (init_drm_record w ls.1
          (init_drm_encoders w crtcs (w.drmModeGetConnector id) ls.2
            (w.drmModeGetConnector id).encoders).1 encoder) with
        universal_planes := 0 }, some encoder) := by
  unfold init_drm_connector at h
  simp only at h
  by_cases hconn : (w.drmModeGetConnector id).connection = DRM_MODE_CONNECTED
  · rw [if_pos hconn] at h
    generalize hR : init_drm_encoders w crtcs (w.drmModeGetConnector id) ls.2
      (w.drmModeGetConnector id).encoders = R at h ⊢
    cases henc : R.2 with
    | none => simp only [henc] at h; cases h
    | some encoder =>
      simp only [henc] at h
      by_cases hn : MAX_DISPLAYS ≤ ls.1.ndisp
      · rw [if_pos hn] at h; cases h
      · rw [if_neg hn] at h
        cases hfmt : set_drm_format w (init_drm_record w ls.1 R.1 encoder) with
        | none => simp only [hfmt] at h; cases h
        | some r =>
          obtain ⟨b, s2⟩ := r
          cases b with
          | false =>
            simp only [hfmt] at h
            cases h
            rcases set_drm_format_spec w _ s2 false hfmt with ⟨_, hs2⟩ | ⟨hb, _⟩
            · exact ⟨rfl, encoder, hconn, rfl, Nat.lt_of_not_le hn, hfmt, by rw [hs2]⟩
            · cases hb
          | true =>
            simp only [hfmt] at h
            cases hcur : s2.mode s2.ndisp with
            | none => simp only [hcur] at h; cases h
            | some cur =>
              simp only [hcur] at h
              cases hprim : init_drm_primary c a s2 cur with
              | none => simp only [hprim] at h; cases h
              | some s3 => simp only [hprim] at h; cases h
  · rw [if_neg hconn] at h
    cases h

/-! ## Discovery: the connector loop -/

theorem SameSlots.refl (n : Nat) (s : State) : SameSlots n s s :=
  fun _ _ => ⟨rfl, rfl, rfl, rfl, rfl, rfl⟩

theorem SameSlots.trans {n m : Nat} {s s1 s2 : State} (hnm : n ≤ m)
    (h1 : SameSlots n s s1) (h2 : SameSlots m s1 s2) : SameSlots n s s2 := by
  intro i hi
  obtain ⟨a1, a2, a3, a4, a5, a6⟩ := h1 i hi
  obtain ⟨b1, b2, b3, b4, b5, b6⟩ := h2 i (Nat.lt_of_lt_of_le hi hnm)
  exact ⟨b1.trans a1, b2.trans a2, b3.trans a3, b4.trans a4, b5.trans a5, b6.trans a6⟩

theorem Recorded.of_same_slots {w : World} {ids : List Nat} {s s' : State} {n i : Nat}
    (h : Recorded w ids s i) (hs : SameSlots n s s') (hi : i < n) : Recorded w ids s' i := by
  obtain ⟨id, connector, encoder, m, h1, h2, h3, h4, h5, h6, h7, h8, h9, h10, h11, h12⟩ := h
  obtain ⟨a1, a2, a3, a4, a5, a6⟩ := hs i hi
  exact ⟨id, connector, encoder, m, h1, h2, h3, h4, h5, a6.trans h6, a2.trans h7,
    a3.trans h8, a1.trans h9, a5.trans h10, h11, by rw [a4]; exact h12⟩

theorem init_drm_track_step_mem (c : Int) (a : Nat) (ids : Nat → Nat)
    (modes : Nat → Option drmModeModeInfo) (n d : Nat) :
    init_drm_track_step c a ids modes n d = n % 256 ∨
    init_drm_track_step c a ids modes n d = d := by
  unfold init_drm_track_step
  simp only
  have hd1 : (if c ≠ -1 ∧ (c % 4294967296).toNat = ids n then n % 256 else d) = n % 256 ∨
      (if c ≠ -1 ∧ (c % 4294967296).toNat = ids n then n % 256 else d) = d := by
    split_ifs
    · exact Or.inl rfl
    · exact Or.inr rfl
  generalize (if c ≠ -1 ∧ (c % 4294967296).toNat = ids n then n % 256 else d) = d1 at hd1 ⊢
  by_cases ha : a ≠ 0
  · rw [if_pos ha]
    split
    · split_ifs
      · exact Or.inl rfl
      · exact hd1
    · exact hd1
  · rw [if_neg ha]; exact hd1

/-- The tracked index stays among the entries seen so far. -/
theorem init_drm_track_le (c : Int) (a : Nat) (s : State) :
    ∀ n, init_drm_track c a s n ≤ n - 1 := by
  intro n
  induction n with
  | zero => simp [init_drm_track]
  | succ n ih =>
    simp only [init_drm_track]
    rcases init_drm_track_step_mem c a s.connector_id s.mode n (init_drm_track c a s n)
      with h | h
    · rw [h]; have := Nat.mod_le n 256; omega
    · rw [h]; omega

theorem init_drm_track_step_congr (c : Int) (a : Nat) (ids ids' : Nat → Nat)
    (modes modes' : Nat → Option drmModeModeInfo) (n d : Nat)
    (hid : ids' n = ids n) (hn : modes' n = modes n) (hd : modes' d = modes d)
    (hm : modes' (n % 256) = modes (n % 256)) :
    init_drm_track_step c a ids' modes' n d = init_drm_track_step c a ids modes n d := by
  unfold init_drm_track_step
  simp only [hid, hn]
  have hd1 : modes' (if c ≠ -1 ∧ (c % 4294967296).toNat = ids n then n % 256 else d) =
      modes (if c ≠ -1 ∧ (c % 4294967296).toNat = ids n then n % 256 else d) := by
    split_ifs
    · exact hm
    · exact hd
  rw [hd1]

/-- The tracked index depends on the slots below `n` only. -/
theorem init_drm_track_same_slots (c : Int) (a : Nat) (s s' : State) (n : Nat)
    (hs : SameSlots n s s') : ∀ k, k ≤ n → init_drm_track c a s' k = init_drm_track c a s k := by
  intro k
  induction k with
  | zero => intro _; rfl
  | succ k ih =>
    intro hk
    simp only [init_drm_track]
    rw [ih (by omega)]
    have hle := init_drm_track_le c a s k
    have hmod := Nat.mod_le k 256
    exact init_drm_track_step_congr c a _ _ _ _ k _ (hs k (by omega)).2.1
      (hs k (by omega)).2.2.2.2.1 (hs _ (by omega)).2.2.2.2.1 (hs _ (by omega)).2.2.2.2.1

/-- Loop invariants: a property of the loop state kept by every pass that falls through
holds when the loop falls through, and what holds at every `return` of the body holds at
the `return` of the loop. -/
theorem init_drm_connectors_invariant (w : World) (c : Int) (a : Nat) (crtcs : List Nat)
    (I : State × Option drmModeEncoder → Prop)
    (J : Int → State × Option drmModeEncoder → Prop) :
    ∀ (ids : List Nat),
      (∀ ls ls1 id, id ∈ ids → I ls →
        init_drm_connector w c a crtcs ls id = Flow.next ls1 → I ls1) →
      (∀ ls ls1 id code, id ∈ ids → I ls →
        init_drm_connector w c a crtcs ls id = Flow.ret code ls1 → J code ls1) →
      ∀ ls, I ls →
        (∀ ls', init_drm_connectors w c a crtcs ls ids = Flow.next ls' → I ls') ∧
        (∀ code ls', init_drm_connectors w c a crtcs ls ids = Flow.ret code ls' →
          J code ls') := by
  intro ids
  induction ids with
  | nil =>
    intro _ _ ls hI
    constructor
    · intro ls' h; simp only [init_drm_connectors] at h; cases h; exact hI
    · intro code ls' h; simp only [init_drm_connectors] at h; cases h
  | cons id rest ih =>
    intro hnext hret ls hI
    have ih' := ih (fun ls ls1 id' hm => hnext ls ls1 id' (List.mem_cons_of_mem _ hm))
      (fun ls ls1 id' code hm => hret ls ls1 id' code (List.mem_cons_of_mem _ hm))
    constructor
    · intro ls' h
      simp only [init_drm_connectors] at h
      split at h
      · rename_i ls1 h1
        exact (ih' ls1 (hnext ls ls1 id (List.mem_cons_self _ _) hI h1)).1 ls' h
      · cases h
      · cases h
    · intro code ls' h
      simp only [init_drm_connectors] at h
      split at h
      · rename_i ls1 h1
        exact (ih' ls1 (hnext ls ls1 id (List.mem_cons_self _ _) hI h1)).2 code ls' h
      · rename_i code1 ls1 h1
        cases h
        exact hret ls _ id _ (List.mem_cons_self _ _) hI h1
      · cases h

theorem init_drm_record_same_slots (w : World) (s : State) (connector : drmModeConnector)
    (encoder : drmModeEncoder) (fmt : Nat → Nat) (u d k : Nat)
    (hfmt : ∀ i, i < s.ndisp → fmt i = s.format i) :
    SameSlots s.ndisp s
      { (init_drm_record w s connector encoder) with
        format := fmt, universal_planes := u, DISP_ID := d, ndisp := k } := by
  intro i hi
  have hne : i ≠ s.ndisp := Nat.ne_of_lt hi
  exact ⟨store_other _ _ _ _ hne, store_other _ _ _ _ hne, store_other _ _ _ _ hne,
    hfmt i hi, store_other _ _ _ _ hne, store_other _ _ _ _ hne⟩

/-- A pass of the loop body that falls through keeps the Display Set well formed. -/
theorem init_drm_connector_next_display_set (w : World) (c : Int) (a : Nat)
    (crtcs ids : List Nat) (ls ls1 : State × Option drmModeEncoder) (id : Nat)
    (hid : id ∈ ids) (hI : DisplaySet w c a ids ls.1)
    (h : init_drm_connector w c a crtcs ls id = Flow.next ls1) :
    DisplaySet w c a ids ls1.1 := by
  rcases init_drm_connector_next w c a crtcs ls ls1 id h with hsame |
    ⟨encoder, f, m, hconn, henc, hn, hf, hm, hls1⟩
  · rw [hsame]; exact hI
  · obtain ⟨_, hrec, hdisp⟩ := hI
    have hR := init_drm_encoders_connector w crtcs (w.drmModeGetConnector id).encoders
      (w.drmModeGetConnector id) ls.2
    generalize init_drm_encoders w crtcs (w.drmModeGetConnector id) ls.2
      (w.drmModeGetConnector id).encoders = R at henc hm hls1 hR
    obtain ⟨hR1, hR2, hR3⟩ := hR
    have hslots := init_drm_record_same_slots w ls.1 R.1 encoder
      (store ls.1.format ls.1.ndisp f) 0
      (init_drm_track_step c a (init_drm_record w ls.1 R.1 encoder).connector_id
        (init_drm_record w ls.1 R.1 encoder).mode ls.1.ndisp ls.1.DISP_ID)
      (ls.1.ndisp + 1) (fun i hi => store_other _ _ _ _ (Nat.ne_of_lt hi))
    rw [hls1]
    refine ⟨?_, ?_, ?_⟩
    · show ls.1.ndisp + 1 ≤ MAX_DISPLAYS
      omega
    · intro i hi
      have hi' : i < ls.1.ndisp + 1 := hi
      by_cases hlt : i < ls.1.ndisp
      · exact (hrec i hlt).of_same_slots hslots hlt
      · have hi_eq : i = ls.1.ndisp := by omega
        subst hi_eq
        refine ⟨id, R.1, encoder, m, hid, hconn, hR1, hR2.trans hconn, hR3, ?_, ?_, ?_, ?_,
          ?_, hm, ?_⟩
        · exact store_same _ _ _
        · exact store_same _ _ _
        · exact store_same _ _ _
        · exact store_same _ _ _
        · exact (store_same _ _ _).trans hm
        · show store ls.1.format ls.1.ndisp f ls.1.ndisp ∈ drm_formats
          rw [store_same]; exact hf
    · have htrack := init_drm_track_same_slots c a ls.1 _ ls.1.ndisp hslots ls.1.ndisp
        (Nat.le_refl _)
      show init_drm_track_step c a _ _ ls.1.ndisp ls.1.DISP_ID =
        init_drm_track_step c a _ _ ls.1.ndisp (init_drm_track c a _ ls.1.ndisp)
      rw [htrack, ← hdisp]

/-- A pass of the loop body that returns does so with -1 and a well-formed Display Set. -/
theorem init_drm_connector_ret_display_set (w : World) (c : Int) (a : Nat)
    (crtcs ids : List Nat) (ls ls1 : State × Option drmModeEncoder) (id : Nat) (code : Int)
    (hI : DisplaySet w c a ids ls.1)
    (h : init_drm_connector w c a crtcs ls id = Flow.ret code ls1) :
    code = -1 ∧ DisplaySet w c a ids ls1.1 := by
  obtain ⟨hcode, encoder, _, _, _, _, hls1⟩ := init_drm_connector_ret w c a crtcs ls ls1 id code h
  refine ⟨hcode, ?_⟩
  obtain ⟨hle, hrec, hdisp⟩ := hI
  generalize init_drm_encoders w crtcs (w.drmModeGetConnector id) ls.2
    (w.drmModeGetConnector id).encoders = R at hls1
  have hslots := init_drm_record_same_slots w ls.1 R.1 encoder ls.1.format 0 ls.1.DISP_ID
    ls.1.ndisp (fun _ _ => rfl)
  rw [hls1]
  refine ⟨hle, ?_, ?_⟩
  · intro i hi
    have hi' : i < ls.1.ndisp := hi
    exact (hrec i hi').of_same_slots hslots hi'
  · exact hdisp.trans
      (init_drm_track_same_slots c a ls.1 _ ls.1.ndisp hslots ls.1.ndisp (Nat.le_refl _)).symm

/-- Every return of `init_drm` on the initial globals leaves a well-formed Display Set; the
status is 0 or -1, and 0 only with at least one display recorded. -/
theorem init_drm_display_set (w : World) (c : Int) (a : Nat) (cap : Nat) (r : Int)
    (st : State) (h : init_drm w c a (State.init cap) = some (r, st)) :
    DisplaySet w c a w.connectors st ∧ (r = 0 ∨ r = -1) ∧ (r = 0 → 0 < st.ndisp) := by
  have h0 : ∀ fd : Int, DisplaySet w c a w.connectors { State.init cap with fd := fd } :=
    fun fd => ⟨Nat.zero_le _, fun i hi => absurd hi (Nat.not_lt_zero i), rfl⟩
  unfold init_drm at h
  simp only at h
  split_ifs at h with hfd
  · cases h
    exact ⟨h0 _, Or.inr rfl, fun h => by cases h⟩
  · cases hres : w.drmModeGetResources with
    | none =>
      simp only [hres] at h
      cases h
      exact ⟨h0 _, Or.inr rfl, fun h => by cases h⟩
    | some resources =>
      simp only [hres] at h
      have hids : w.connectors = resources.connectors := by
        simp only [World.connectors, hres]
      have hinv := init_drm_connectors_invariant w c a resources.crtcs
        (fun ls => DisplaySet w c a w.connectors ls.1)
        (fun code ls => code = -1 ∧ DisplaySet w c a w.connectors ls.1)
        resources.connectors
        (fun ls ls1 id hid hI hstep =>
          init_drm_connector_next_display_set w c a resources.crtcs w.connectors ls ls1 id
            (hids ▸ hid) hI hstep)
        (fun ls ls1 id code _ hI hstep =>
          init_drm_connector_ret_display_set w c a resources.crtcs w.connectors ls ls1 id
            code hI hstep)
        ({ State.init cap with fd := init_drm_open w modules (State.init cap).fd }, none)
        (h0 _)
      split at h
      · cases h
      · rename_i code ls hloop
        cases h
        obtain ⟨hcode, hds⟩ := hinv.2 _ _ hloop
        exact ⟨hds, Or.inr hcode, fun h => by rw [hcode] at h; cases h⟩
      · rename_i ls hloop
        have hds := hinv.1 _ hloop
        split_ifs at h with hz
        · cases h
          exact ⟨hds, Or.inr rfl, fun h => by cases h⟩
        · cases h
          exact ⟨hds, Or.inl rfl, fun _ => Nat.pos_of_ne_zero hz⟩

/-! ## Discovery: the recorded entries -/

/-- C2: whenever `init_drm` returns, every connector identity recorded in
`drm.connector_id[0..ndisp-1]` is the identity of an enumerated connector whose connection
state is connected (and the connector stored beside it is that connected connector); a
connector that is not connected makes the loop body fall through with the globals, and so
`drm.ndisp`, exactly as they were. -/
theorem init_drm_records_only_connected (w : World) (c : Int) (a : Nat) (cap : Nat)
    (r : Int) (st : State) (h : init_drm w c a (State.init cap) = some (r, st)) :
    (∀ i, i < st.ndisp →
      ∃ (id : Nat) (connector : drmModeConnector),
        id ∈ w.connectors ∧
        (w.drmModeGetConnector id).connection = DRM_MODE_CONNECTED ∧
        st.connector_id i = (w.drmModeGetConnector id).connector_id ∧
        st.connectors i = some connector ∧
        connector.connection = DRM_MODE_CONNECTED ∧
        connector.connector_id = st.connector_id i) ∧
    (∀ (crtcs : List Nat) (ls : State × Option drmModeEncoder) (id : Nat),
      (w.drmModeGetConnector id).connection ≠ DRM_MODE_CONNECTED →
      init_drm_connector w c a crtcs ls id = Flow.next ls) := by
  obtain ⟨⟨_, hrec, _⟩, _, _⟩ := init_drm_display_set w c a cap r st h
  constructor
  · intro i hi
    obtain ⟨id, connector, _, _, h1, h2, h3, h4, _, h6, h7, _⟩ := hrec i hi
    exact ⟨id, connector, h1, h2, h7.trans h3, h6, h4, h7.symm⟩
  · intro crtcs ls id hne
    unfold init_drm_connector
    simp only
    rw [if_neg hne]

/-- Witness for C2: of the three connectors of the dual device the disconnected connector 6
is not recorded. -/
theorem init_drm_records_only_connected_witness :
    init_drm dual_output (-1) 0 (State.init 0) =
      some (0, final_state (init_drm dual_output (-1) 0 (State.init 0))) ∧
    summary (init_drm dual_output (-1) 0 (State.init 0)) =
      some (0, 2, 0, [5, 7], [DRM_FORMAT_XRGB8888, DRM_FORMAT_XRGB8888]) ∧
    ∃ id, id ∈ dual_output.connectors ∧
      (dual_output.drmModeGetConnector id).connection = DRM_MODE_CONNECTED ∧
      (final_state (init_drm dual_output (-1) 0 (State.init 0))).connector_id 1 =
        (dual_output.drmModeGetConnector id).connector_id :=
  ⟨final_state_eq _ 0 (by decide), by decide,
   (let ⟨id, _, h1, h2, h3, _⟩ :=
      (init_drm_records_only_connected dual_output (-1) 0 0 0
        (final_state (init_drm dual_output (-1) 0 (State.init 0)))
        (final_state_eq _ 0 (by decide))).1 1 (by decide)
    ⟨id, h1, h2, h3⟩)⟩

theorem init_drm_pick_mode_valid (crtc : drmModeCrtc) (hv : crtc.mode_valid ≠ 0) :
    ∀ (modes : List drmModeModeInfo),
      (∃ m' ∈ modes, m'.hdisplay = crtc.width ∧ m'.vdisplay = crtc.height) →
      ∃ m, init_drm_pick_mode crtc modes = some m ∧ m ∈ modes ∧
        m.hdisplay = crtc.width ∧ m.vdisplay = crtc.height := by
  intro modes
  induction modes with
  | nil => intro h; obtain ⟨m', hm', _⟩ := h; cases hm'
  | cons m rest ih =>
    intro hex
    simp only [init_drm_pick_mode, hv, if_true, ne_eq, not_false_eq_true]
    by_cases hm : m.hdisplay = crtc.width ∧ m.vdisplay = crtc.height
    · rw [if_pos hm]
      exact ⟨m, rfl, List.mem_cons_self _ _, hm.1, hm.2⟩
    · rw [if_neg hm]
      have hex' : ∃ m' ∈ rest, m'.hdisplay = crtc.width ∧ m'.vdisplay = crtc.height := by
        obtain ⟨m', hm', hg⟩ := hex
        rcases List.mem_cons.mp hm' with h | h
        · subst h; exact absurd hg hm
        · exact ⟨m', h, hg⟩
      obtain ⟨m1, h1, h2, h3⟩ := ih hex'
      exact ⟨m1, h1, List.mem_cons_of_mem _ h2, h3⟩

/-- C3: whenever `init_drm` returns, for every entry of the Display Set whose pipe (the
CRTC read back for `drm.crtc_id[i]`) reports a valid current mode: if the connector's mode
list contains a mode whose hdisplay and vdisplay equal the pipe's width and height, the
mode selected for the entry is a mode of that list with hdisplay equal to the pipe's width
and vdisplay equal to its height. -/
theorem init_drm_selects_pipe_geometry (w : World) (c : Int) (a : Nat) (cap : Nat)
    (r : Int) (st : State) (h : init_drm w c a (State.init cap) = some (r, st)) :
    ∀ i, i < st.ndisp →
      ∃ (connector : drmModeConnector) (m : drmModeModeInfo),
        st.connectors i = some connector ∧ st.mode i = some m ∧
        ((w.drmModeGetCrtc (st.crtc_id i)).mode_valid ≠ 0 →
          (∃ m' ∈ connector.modes,
            m'.hdisplay = (w.drmModeGetCrtc (st.crtc_id i)).width ∧
            m'.vdisplay = (w.drmModeGetCrtc (st.crtc_id i)).height) →
          m ∈ connector.modes ∧
          m.hdisplay = (w.drmModeGetCrtc (st.crtc_id i)).width ∧
          m.vdisplay = (w.drmModeGetCrtc (st.crtc_id i)).height) := by
  obtain ⟨⟨_, hrec, _⟩, _, _⟩ := init_drm_display_set w c a cap r st h
  intro i hi
  obtain ⟨id, connector, encoder, m, _, _, _, _, _, h6, _, _, h9, h10, h11, _⟩ := hrec i hi
  refine ⟨connector, m, h6, h10, ?_⟩
  rw [h9]
  intro hv hex
  obtain ⟨m1, hp, hmem, hg⟩ := init_drm_pick_mode_valid _ hv connector.modes hex
  have : m = m1 := by
    unfold init_drm_mode at h11
    rw [hp] at h11
    exact (Option.some.inj h11).symm
  subst this
  exact ⟨hmem, hg⟩

/-- Witness for C3: the single output's pipe reports 1920x1080 and the connector lists
1280x720 before 1920x1080; the second mode is selected. -/
theorem init_drm_selects_pipe_geometry_witness :
    init_drm (single_output [DRM_FORMAT_XRGB8888]) (-1) 0 (State.init 0) =
      some (0, final_state (init_drm (single_output [DRM_FORMAT_XRGB8888]) (-1) 0
        (State.init 0))) ∧
    (final_state (init_drm (single_output [DRM_FORMAT_XRGB8888]) (-1) 0
      (State.init 0))).mode 0 = some { hdisplay := 1920, vdisplay := 1080 } ∧
    ∃ (connector : drmModeConnector) (m : drmModeModeInfo),
      (final_state (init_drm (single_output [DRM_FORMAT_XRGB8888]) (-1) 0
        (State.init 0))).connectors 0 = some connector ∧
      (final_state (init_drm (single_output [DRM_FORMAT_XRGB8888]) (-1) 0
        (State.init 0))).mode 0 = some m :=
  ⟨final_state_eq _ 0 (by decide), by decide,
   (let ⟨connector, m, h1, h2, _⟩ :=
      init_drm_selects_pipe_geometry (single_output [DRM_FORMAT_XRGB8888]) (-1) 0 0 0
        (final_state (init_drm (single_output [DRM_FORMAT_XRGB8888]) (-1) 0 (State.init 0)))
        (final_state_eq _ 0 (by decide)) 0 (by decide)
    ⟨connector, m, h1, h2⟩)⟩

/-! ## Discovery: the primary display -/

/-- With no connector requested and all outputs enabled, the tracked index over `n + 1`
recorded entries is the first entry of largest resolution. -/
theorem init_drm_track_all_display (a : Nat) (ha : a ≠ 0) (s : State) :
    ∀ n, n < 256 → (∀ i, i ≤ n → ∃ m, s.mode i = some m) →
      init_drm_track (-1) a s (n + 1) ≤ n ∧
      ∃ md, s.mode (init_drm_track (-1) a s (n + 1)) = some md ∧
        ∀ i mi, i ≤ n → s.mode i = some mi →
          resolution mi ≤ resolution md ∧
          (i < init_drm_track (-1) a s (n + 1) → resolution mi < resolution md) := by
  intro n
  induction n with
  | zero =>
    intro _ hm
    obtain ⟨m0, hm0⟩ := hm 0 (Nat.le_refl _)
    have ht : init_drm_track (-1) a s (0 + 1) = 0 := by
      simp [init_drm_track, init_drm_track_step, ha, hm0]
    rw [ht]
    refine ⟨Nat.le_refl _, m0, hm0, ?_⟩
    intro i mi hi hmi
    have hi0 : i = 0 := by omega
    subst hi0
    rw [hm0] at hmi
    cases hmi
    exact ⟨Nat.le_refl _, fun h => absurd h (Nat.lt_irrefl _)⟩
  | succ n ih =>
    intro hn hm
    obtain ⟨hle, md, hmd, hmax⟩ := ih (by omega) (fun i hi => hm i (by omega))
    obtain ⟨cur, hcur⟩ := hm (n + 1) (Nat.le_refl _)
    have hmod : (n + 1) % 256 = n + 1 := Nat.mod_eq_of_lt hn
    by_cases hgt : resolution cur > resolution md
    · have ht : init_drm_track (-1) a s (n + 1 + 1) = n + 1 := by
        rw [init_drm_track]
        simp [init_drm_track_step, ha, hmd, hcur, hgt, hmod]
      rw [ht]
      refine ⟨Nat.le_refl _, cur, hcur, ?_⟩
      intro i mi hi hmi
      by_cases hin : i ≤ n
      · have := (hmax i mi hin hmi).1
        exact ⟨by omega, fun _ => by omega⟩
      · have hi1 : i = n + 1 := by omega
        subst hi1
        rw [hcur] at hmi
        cases hmi
        exact ⟨Nat.le_refl _, fun h => absurd h (Nat.lt_irrefl _)⟩
    · have ht : init_drm_track (-1) a s (n + 1 + 1) = init_drm_track (-1) a s (n + 1) := by
        conv_lhs => rw [init_drm_track]
        simp [init_drm_track_step, ha, hmd, hcur, hgt]
      rw [ht]
      refine ⟨by omega, md, hmd, ?_⟩
      intro i mi hi hmi
      by_cases hin : i ≤ n
      · exact hmax i mi hin hmi
      · have hi1 : i = n + 1 := by omega
        subst hi1
        rw [hcur] at hmi
        cases hmi
        exact ⟨by omega, fun h => by omega⟩

theorem resolution_eq (m : drmModeModeInfo) (hh : m.hdisplay < 65536)
    (hv : m.vdisplay < 65536) : resolution m = m.hdisplay * m.vdisplay := by
  unfold resolution
  have : m.vdisplay * m.hdisplay < 65536 * 65536 :=
    Nat.mul_lt_mul'' hv hh
  rw [Nat.mod_eq_of_lt (by omega), Nat.mul_comm]

/-- C4: with the all-outputs flag set and no connector requested, after a successful
`init_drm` the primary index `DISP_ID` is the index of the first Display Set entry whose
selected mode has the largest resolution: every entry's resolution is at most, and every
earlier entry's resolution strictly below, that of the primary.  The resolution is
`vdisplay * hdisplay` as a `uint32_t`, which for the `uint16_t` fields of a mode is the
product hdisplay × vdisplay itself. -/
theorem init_drm_all_display_primary (w : World) (a : Nat) (cap : Nat) (st : State)
    (ha : a ≠ 0) (h : init_drm w (-1) a (State.init cap) = some (0, st)) :
    st.DISP_ID < st.ndisp ∧
    ∃ m, st.mode st.DISP_ID = some m ∧
      ∀ i, i < st.ndisp →
        ∃ mi, st.mode i = some mi ∧
          resolution mi ≤ resolution m ∧
          (i < st.DISP_ID → resolution mi < resolution m) ∧
          (mi.hdisplay < 65536 → mi.vdisplay < 65536 →
            m.hdisplay < 65536 → m.vdisplay < 65536 →
            mi.hdisplay * mi.vdisplay ≤ m.hdisplay * m.vdisplay ∧
            (i < st.DISP_ID → mi.hdisplay * mi.vdisplay < m.hdisplay * m.vdisplay)) := by
  obtain ⟨⟨hle, hrec, hdisp⟩, _, hpos⟩ := init_drm_display_set w (-1) a cap 0 st h
  have hpos := hpos rfl
  have hmodes : ∀ i, i < st.ndisp → ∃ m, st.mode i = some m := by
    intro i hi
    obtain ⟨_, _, _, m, _, _, _, _, _, _, _, _, _, h10, _⟩ := hrec i hi
    exact ⟨m, h10⟩
  obtain ⟨n, hn⟩ : ∃ n, st.ndisp = n + 1 := ⟨st.ndisp - 1, by omega⟩
  have hmax4 : MAX_DISPLAYS = 4 := rfl
  obtain ⟨hd, md, hmd, hmax⟩ := init_drm_track_all_display a ha st n (by omega)
    (fun i hi => hmodes i (by omega))
  rw [hn] at hdisp
  rw [← hdisp] at hd hmd hmax
  refine ⟨by omega, md, hmd, ?_⟩
  intro i hi
  obtain ⟨mi, hmi⟩ := hmodes i hi
  obtain ⟨h1, h2⟩ := hmax i mi (by omega) hmi
  refine ⟨mi, hmi, h1, h2, ?_⟩
  intro a1 a2 a3 a4
  rw [← resolution_eq mi a1 a2, ← resolution_eq md a3 a4]
  exact ⟨h1, h2⟩

/-- Witness for C4: with outputs of 1280x720 and 1920x1080 connected and all outputs
enabled, the 1920x1080 output (connector 7, entry 1) is primary. -/
theorem init_drm_all_display_primary_witness :
    (1 : Nat) ≠ 0 ∧
    init_drm dual_output (-1) 1 (State.init 0) =
      some (0, final_state (init_drm dual_output (-1) 1 (State.init 0))) ∧
    (final_state (init_drm dual_output (-1) 1 (State.init 0))).DISP_ID = 1 ∧
    (final_state (init_drm dual_output (-1) 1 (State.init 0))).connector_id 1 = 7 ∧
    (final_state (init_drm dual_output (-1) 1 (State.init 0))).mode 1 =
      some { hdisplay := 1920, vdisplay := 1080 } ∧
    (final_state (init_drm dual_output (-1) 1 (State.init 0))).DISP_ID <
      (final_state (init_drm dual_output (-1) 1 (State.init 0))).ndisp :=
  ⟨by decide, final_state_eq _ 0 (by decide), by decide, by decide, by decide,
   (init_drm_all_display_primary dual_output 1 0
      (final_state (init_drm dual_output (-1) 1 (State.init 0))) (by decide)
      (final_state_eq _ 0 (by decide))).1⟩

/-- Once the requested connector has been recorded at entry `i`, the tracked index stays
`i` as long as no later entry carries the requested identity and, when all outputs are
enabled, no later entry has a strictly larger resolution. -/
theorem init_drm_track_requested (c : Int) (a : Nat) (s : State) (i : Nat) (hc : c ≠ -1)
    (hi : i < 256) (hid : s.connector_id i = (c % 4294967296).toNat) :
    ∀ k,
      (∀ j, i < j → j < i + 1 + k → s.connector_id j ≠ (c % 4294967296).toNat) →
      (a = 0 ∨ ∀ j, i < j → j < i + 1 + k → ∀ mj mi,
        s.mode j = some mj → s.mode i = some mi → resolution mj ≤ resolution mi) →
      init_drm_track c a s (i + 1 + k) = i := by
  intro k
  induction k with
  | zero =>
    intro _ _
    show init_drm_track_step c a s.connector_id s.mode i (init_drm_track c a s i) = i
    unfold init_drm_track_step
    simp only [hid, hc, ne_eq, not_false_eq_true, and_self, if_true, Nat.mod_eq_of_lt hi]
    by_cases ha : a = 0
    · simp [ha]
    · simp only [ha, not_false_eq_true, if_true]
      cases hm : s.mode i with
      | none => rfl
      | some m => simp
  | succ k ih =>
    intro hlast hres
    have hprev : init_drm_track c a s (i + 1 + k) = i :=
      ih (fun j h1 h2 => hlast j h1 (by omega))
        (hres.imp id (fun h j h1 h2 => h j h1 (by omega)))
    show init_drm_track_step c a s.connector_id s.mode (i + 1 + k)
      (init_drm_track c a s (i + 1 + k)) = i
    rw [hprev]
    unfold init_drm_track_step
    have hno : ¬ (c ≠ -1 ∧ (c % 4294967296).toNat = s.connector_id (i + 1 + k)) :=
      fun h => hlast (i + 1 + k) (by omega) (by omega) h.2.symm
    simp only [hno, if_false]
    rcases hres with ha | hres
    · simp [ha]
    · by_cases ha : a = 0
      · simp [ha]
      · simp only [ne_eq, ha, not_false_eq_true, if_true]
        cases hmi : s.mode i with
        | none => rfl
        | some mi =>
          cases hmj : s.mode (i + 1 + k) with
          | none => rfl
          | some mj =>
            have := hres (i + 1 + k) (by omega) (by omega) mj mi hmj hmi
            simp only
            rw [if_neg (by omega)]

/-- C6, the code at the failing input: with all outputs enabled and connector 5 requested
on the dual device, `init_drm` succeeds with connector 5 recorded at entry 0, yet `DISP_ID`
is 1, the entry of connector 7 (1920x1080) recorded after it.  On the same outputs
enumerated in the other order, with the same options, connector 5 is recorded at entry 1
and is primary: which display is primary depends on the enumeration order. -/
theorem init_drm_all_display_overrides_request :
    init_drm dual_output 5 1 (State.init 0) =
      some (0, final_state (init_drm dual_output 5 1 (State.init 0))) ∧
    (final_state (init_drm dual_output 5 1 (State.init 0))).ndisp = 2 ∧
    (final_state (init_drm dual_output 5 1 (State.init 0))).connector_id 0 = 5 ∧
    (final_state (init_drm dual_output 5 1 (State.init 0))).connector_id 1 = 7 ∧
    (final_state (init_drm dual_output 5 1 (State.init 0))).DISP_ID = 1 ∧
    init_drm dual_output_swapped 5 1 (State.init 0) =
      some (0, final_state (init_drm dual_output_swapped 5 1 (State.init 0))) ∧
    (final_state (init_drm dual_output_swapped 5 1 (State.init 0))).connector_id 0 = 7 ∧
    (final_state (init_drm dual_output_swapped 5 1 (State.init 0))).connector_id 1 = 5 ∧
    (final_state (init_drm dual_output_swapped 5 1 (State.init 0))).DISP_ID = 1 ∧
    (final_state (init_drm dual_output 5 0 (State.init 0))).DISP_ID = 0 :=
  ⟨final_state_eq _ 0 (by decide), by decide, by decide, by decide, by decide,
   final_state_eq _ 0 (by decide), by decide, by decide, by decide, by decide⟩

/-- Where the requested connector does become primary: if a connector is requested
(`connector_id` is not -1) and `init_drm` succeeds with that identity (the `int8_t` global
as the comparison converts it) recorded at entry `i` of the Display Set and at no later
entry, then `DISP_ID` is `i` when the all-outputs flag is clear, and also when it is set
provided no entry recorded after `i` has a strictly larger resolution than entry `i`. -/
theorem init_drm_requested_primary (w : World) (c : Int) (a : Nat) (cap : Nat)
    (st : State) (i : Nat) (hc : c ≠ -1)
    (h : init_drm w c a (State.init cap) = some (0, st))
    (hi : i < st.ndisp)
    (hid : st.connector_id i = (c % 4294967296).toNat)
    (hlast : ∀ j, i < j → j < st.ndisp → st.connector_id j ≠ (c % 4294967296).toNat)
    (hres : a = 0 ∨ ∀ j, i < j → j < st.ndisp → ∀ mj mi,
      st.mode j = some mj → st.mode i = some mi → resolution mj ≤ resolution mi) :
    st.DISP_ID = i := by
  obtain ⟨⟨hle, _, hdisp⟩, _, _⟩ := init_drm_display_set w c a cap 0 st h
  have hmax4 : MAX_DISPLAYS = 4 := rfl
  obtain ⟨k, hk⟩ : ∃ k, st.ndisp = i + 1 + k := ⟨st.ndisp - (i + 1), by omega⟩
  rw [hdisp, hk]
  exact init_drm_track_requested c a st i hc (by omega) hid k
    (fun j h1 h2 => hlast j h1 (by omega))
    (hres.imp id (fun h j h1 h2 => h j h1 (by omega)))

/-- The requested connector as primary on the two orders of the dual device with all
outputs enabled: connector 7 requested (the later and larger entry), and connector 5
requested on the swapped device (the later entry, after a larger one). -/
theorem init_drm_requested_primary_witness :
    (7 : Int) ≠ -1 ∧
    init_drm dual_output 7 1 (State.init 0) =
      some (0, final_state (init_drm dual_output 7 1 (State.init 0))) ∧
    (final_state (init_drm dual_output 7 1 (State.init 0))).connector_id 1 = 7 ∧
    (final_state (init_drm dual_output 7 1 (State.init 0))).DISP_ID = 1 ∧
    (final_state (init_drm dual_output_swapped 5 1 (State.init 0))).DISP_ID = 1 := by
  have hn : (final_state (init_drm dual_output 7 1 (State.init 0))).ndisp = 2 := by decide
  have hn' : (final_state (init_drm dual_output_swapped 5 1 (State.init 0))).ndisp = 2 := by
    decide
  exact ⟨by decide, final_state_eq _ 0 (by decide), by decide,
    init_drm_requested_primary dual_output 7 1 0
      (final_state (init_drm dual_output 7 1 (State.init 0))) 1 (by decide)
      (final_state_eq _ 0 (by decide)) (by decide) (by decide)
      (fun j h1 h2 => by omega)
      (Or.inr (fun j h1 h2 => by omega)),
    init_drm_requested_primary dual_output_swapped 5 1 0
      (final_state (init_drm dual_output_swapped 5 1 (State.init 0))) 1 (by decide)
      (final_state_eq _ 0 (by decide)) (by decide) (by decide)
      (fun j h1 h2 => by omega)
      (Or.inr (fun j h1 h2 => by omega))⟩

/-! ## Discovery: a requested connector that is never recorded -/

theorem init_drm_primary_unrequested (c : Int) (a : Nat) (s : State)
    (cur : drmModeModeInfo) (hne : s.connector_id s.ndisp ≠ (c % 4294967296).toNat) :
    init_drm_primary c a s cur = init_drm_primary (-1) a s cur := by
  have h1 : ¬ (c ≠ -1 ∧ (c % 4294967296).toNat = s.connector_id s.ndisp) :=
    fun h => hne h.2.symm
  have h2 : ¬ ((-1 : Int) ≠ -1 ∧ ((-1 : Int) % 4294967296).toNat = s.connector_id s.ndisp) :=
    fun h => h.1 rfl
  unfold init_drm_primary
  simp only [h1, h2, if_false]

/-- The loop body does not depend on the requested connector unless it records an entry
carrying the requested identity. -/
theorem init_drm_connector_unrequested (w : World) (c : Int) (a : Nat) (crtcs : List Nat)
    (ls : State × Option drmModeEncoder) (id : Nat) :
    (∀ ls1, init_drm_connector w c a crtcs ls id = Flow.next ls1 →
      (ls1.1.ndisp = ls.1.ndisp + 1 →
        ls1.1.connector_id ls.1.ndisp ≠ (c % 4294967296).toNat) →
      init_drm_connector w (-1) a crtcs ls id = Flow.next ls1) ∧
    (∀ code ls1, init_drm_connector w c a crtcs ls id = Flow.ret code ls1 →
      init_drm_connector w (-1) a crtcs ls id = Flow.ret code ls1) := by
  unfold init_drm_connector
  simp only
  by_cases hconn : (w.drmModeGetConnector id).connection = DRM_MODE_CONNECTED
  · simp only [hconn, if_true]
    generalize init_drm_encoders w crtcs (w.drmModeGetConnector id) ls.2
      (w.drmModeGetConnector id).encoders = R
    cases henc : R.2 with
    | none => exact ⟨fun _ h _ => h, fun _ _ h => h⟩
    | some encoder =>
      simp only
      by_cases hn : MAX_DISPLAYS ≤ ls.1.ndisp
      · simp only [hn, if_true]
        exact ⟨fun _ h _ => h, fun _ _ h => h⟩
      · simp only [hn, if_false]
        cases hfmt : set_drm_format w (init_drm_record w ls.1 R.1 encoder) with
        | none => exact ⟨fun _ h _ => h, fun _ _ h => h⟩
        | some r =>
          obtain ⟨b, s2⟩ := r
          cases b with
          | false => exact ⟨fun _ h _ => h, fun _ _ h => h⟩
          | true =>
            simp only
            cases hcur : s2.mode s2.ndisp with
            | none => exact ⟨fun _ h _ => h, fun _ _ h => h⟩
            | some cur =>
              simp only
              have hs2n : s2.ndisp = ls.1.ndisp := by
                rcases set_drm_format_spec w _ s2 true hfmt with ⟨hb, _⟩ |
                  ⟨_, _, _, _, _, _, _, _, _, _, _, _, _, _, hs2⟩
                · cases hb
                · rw [hs2]; rfl
              constructor
              · intro ls1 h hne
                cases hprim : init_drm_primary c a s2 cur with
                | none => rw [hprim] at h; cases h
                | some s3 =>
                  rw [hprim] at h
                  simp only at h
                  cases h
                  have hs3 := init_drm_primary_some c a s2 s3 cur hcur hprim
                  have hne' : s2.connector_id s2.ndisp ≠ (c % 4294967296).toNat := by
                    have := hne (by rw [hs3]; show s2.ndisp + 1 = _; rw [hs2n])
                    rw [hs3] at this
                    rw [hs2n]
                    exact this
                  rw [← init_drm_primary_unrequested c a s2 cur hne', hprim]
              · intro code ls1 h
                cases hprim : init_drm_primary c a s2 cur with
                | none => rw [hprim] at h; cases h
                | some s3 => rw [hprim] at h; cases h
  · simp only [hconn, if_false]
    exact ⟨fun _ h _ => h, fun _ _ h => h⟩

/-- A pass of the loop body leaves `drm.ndisp` as it was or adds one to it, and keeps the
slots below it. -/
theorem init_drm_connector_frame (w : World) (c : Int) (a : Nat) (crtcs : List Nat)
    (ls : State × Option drmModeEncoder) (id : Nat) :
    (∀ ls1, init_drm_connector w c a crtcs ls id = Flow.next ls1 →
      (ls1.1.ndisp = ls.1.ndisp ∨ ls1.1.ndisp = ls.1.ndisp + 1) ∧
      SameSlots ls.1.ndisp ls.1 ls1.1) ∧
    (∀ code ls1, init_drm_connector w c a crtcs ls id = Flow.ret code ls1 →
      ls1.1.ndisp = ls.1.ndisp ∧ SameSlots ls.1.ndisp ls.1 ls1.1) := by
  constructor
  · intro ls1 h
    rcases init_drm_connector_next w c a crtcs ls ls1 id h with hsame |
      ⟨encoder, f, m, _, _, _, _, _, hls1⟩
    · rw [hsame]; exact ⟨Or.inl rfl, SameSlots.refl _ _⟩
    · rw [hls1]
      exact ⟨Or.inr rfl, init_drm_record_same_slots w ls.1 _ encoder _ _ _ _
        (fun i hi => store_other _ _ _ _ (Nat.ne_of_lt hi))⟩
  · intro code ls1 h
    obtain ⟨_, encoder, _, _, _, _, hls1⟩ := init_drm_connector_ret w c a crtcs ls ls1 id code h
    rw [hls1]
    exact ⟨rfl, init_drm_record_same_slots w ls.1 _ encoder _ _ _ _ (fun _ _ => rfl)⟩

/-- The connector loop never lowers `drm.ndisp` and keeps the slots below it. -/
theorem init_drm_connectors_frame (w : World) (c : Int) (a : Nat) (crtcs : List Nat)
    (ids : List Nat) (ls : State × Option drmModeEncoder) :
    (∀ ls', init_drm_connectors w c a crtcs ls ids = Flow.next ls' →
      ls.1.ndisp ≤ ls'.1.ndisp ∧ SameSlots ls.1.ndisp ls.1 ls'.1) ∧
    (∀ code ls', init_drm_connectors w c a crtcs ls ids = Flow.ret code ls' →
      ls.1.ndisp ≤ ls'.1.ndisp ∧ SameSlots ls.1.ndisp ls.1 ls'.1) := by
  have key := init_drm_connectors_invariant w c a crtcs
    (fun x => ls.1.ndisp ≤ x.1.ndisp ∧ SameSlots ls.1.ndisp ls.1 x.1)
    (fun _ x => ls.1.ndisp ≤ x.1.ndisp ∧ SameSlots ls.1.ndisp ls.1 x.1) ids
    (fun x x1 id _ hI hstep => by
      obtain ⟨hn, hs⟩ := (init_drm_connector_frame w c a crtcs x id).1 x1 hstep
      exact ⟨by omega, SameSlots.trans hI.1 hI.2 hs⟩)
    (fun x x1 id code _ hI hstep => by
      obtain ⟨hn, hs⟩ := (init_drm_connector_frame w c a crtcs x id).2 code x1 hstep
      exact ⟨by omega, SameSlots.trans hI.1 hI.2 hs⟩)
    ls ⟨Nat.le_refl _, SameSlots.refl _ _⟩
  exact key

/-- The connector loop run with a requested connector that none of the entries it records
carries is the loop run with no connector requested. -/
theorem init_drm_connectors_unrequested (w : World) (c : Int) (a : Nat) (crtcs : List Nat) :
    ∀ (ids : List Nat) (ls : State × Option drmModeEncoder),
      (∀ ls', init_drm_connectors w c a crtcs ls ids = Flow.next ls' →
        (∀ i, ls.1.ndisp ≤ i → i < ls'.1.ndisp →
          ls'.1.connector_id i ≠ (c % 4294967296).toNat) →
        init_drm_connectors w (-1) a crtcs ls ids = Flow.next ls') ∧
      (∀ code ls', init_drm_connectors w c a crtcs ls ids = Flow.ret code ls' →
        (∀ i, ls.1.ndisp ≤ i → i < ls'.1.ndisp →
          ls'.1.connector_id i ≠ (c % 4294967296).toNat) →
        init_drm_connectors w (-1) a crtcs ls ids = Flow.ret code ls') := by
  intro ids
  induction ids with
  | nil =>
    intro ls
    exact ⟨fun _ h _ => h, fun _ _ h _ => h⟩
  | cons id rest ih =>
    intro ls
    have hstep := init_drm_connector_unrequested w c a crtcs ls id
    have hframe := init_drm_connector_frame w c a crtcs ls id
    constructor
    · intro ls' h hne
      simp only [init_drm_connectors] at h ⊢
      cases hs : init_drm_connector w c a crtcs ls id with
      | undef => rw [hs] at h; cases h
      | ret code ls1 => rw [hs] at h; cases h
      | next ls1 =>
        rw [hs] at h
        simp only at h
        obtain ⟨hn1, _⟩ := hframe.1 ls1 hs
        obtain ⟨hn2, hslots⟩ := (init_drm_connectors_frame w c a crtcs rest ls1).1 ls' h
        have h1 : init_drm_connector w (-1) a crtcs ls id = Flow.next ls1 := by
          apply hstep.1 ls1 hs
          intro hinc
          rw [← (hslots ls.1.ndisp (by omega)).2.1]
          exact hne _ (Nat.le_refl _) (by omega)
        rw [h1]
        exact (ih ls1).1 ls' h (fun i hi1 hi2 => hne i (by omega) hi2)
    · intro code ls' h hne
      simp only [init_drm_connectors] at h ⊢
      cases hs : init_drm_connector w c a crtcs ls id with
      | undef => rw [hs] at h; cases h
      | ret code1 ls1 =>
        rw [hs] at h
        simp only at h
        rw [hstep.2 code1 ls1 hs]
        exact h
      | next ls1 =>
        rw [hs] at h
        simp only at h
        obtain ⟨hn1, _⟩ := hframe.1 ls1 hs
        obtain ⟨hn2, hslots⟩ := (init_drm_connectors_frame w c a crtcs rest ls1).2 code ls' h
        have h1 : init_drm_connector w (-1) a crtcs ls id = Flow.next ls1 := by
          apply hstep.1 ls1 hs
          intro hinc
          rw [← (hslots ls.1.ndisp (by omega)).2.1]
          exact hne _ (Nat.le_refl _) (by omega)
        rw [h1]
        exact (ih ls1).2 code ls' h (fun i hi1 hi2 => hne i (by omega) hi2)

/-- Counterexample to C5: connector 9 is requested and the dual device has no such
connector; `init_drm` records connectors 5 and 7 and returns 0. -/
theorem init_drm_succeeds_without_requested_connector :
    (9 : Int) ≠ -1 ∧
    init_drm dual_output 9 0 (State.init 0) =
      some (0, final_state (init_drm dual_output 9 0 (State.init 0))) ∧
    (final_state (init_drm dual_output 9 0 (State.init 0))).ndisp = 2 ∧
    (final_state (init_drm dual_output 9 0 (State.init 0))).connector_id 0 = 5 ∧
    (final_state (init_drm dual_output 9 0 (State.init 0))).connector_id 1 = 7 ∧
    (final_state (init_drm dual_output 9 0 (State.init 0))).DISP_ID = 0 :=
  ⟨by decide, final_state_eq _ 0 (by decide), by decide, by decide, by decide, by decide⟩

/-- The run with a requested connector that no recorded entry carries is the run with no
connector requested. -/
theorem init_drm_same_as_unrequested (w : World) (c : Int) (a : Nat) (cap : Nat) (r : Int)
    (st : State) (h : init_drm w c a (State.init cap) = some (r, st))
    (hno : ∀ i, i < st.ndisp → st.connector_id i ≠ (c % 4294967296).toNat) :
    init_drm w (-1) a (State.init cap) = some (r, st) := by
  unfold init_drm at h ⊢
  simp only at h ⊢
  split_ifs at h ⊢ with hfd
  · exact h
  · cases hres : w.drmModeGetResources with
    | none => rw [hres] at h; exact h
    | some resources =>
      rw [hres] at h
      simp only at h ⊢
      have hloop := init_drm_connectors_unrequested w c a resources.crtcs
        resources.connectors
        ({ State.init cap with fd := init_drm_open w modules (State.init cap).fd }, none)
      cases hc : init_drm_connectors w c a resources.crtcs
          ({ State.init cap with fd := init_drm_open w modules (State.init cap).fd }, none)
          resources.connectors with
      | undef => rw [hc] at h; cases h
      | ret code ls =>
        rw [hc] at h
        simp only [Option.some.injEq, Prod.mk.injEq] at h
        obtain ⟨h1, h2⟩ := h
        subst h1 h2
        rw [hloop.2 code ls hc (fun i _ hi => hno i hi)]
      | next ls =>
        rw [hc] at h
        simp only at h
        have hst : st = ls.1 := by
          split_ifs at h <;> (cases h; rfl)
        subst hst
        rw [hloop.1 ls hc (fun i _ hi => hno i hi)]
        exact h

/-- The connector loop returns only with -1, from the pass for a connected connector on
which `set_drm_format` failed. -/
theorem init_drm_connectors_ret_failed (w : World) (c : Int) (a : Nat) (crtcs : List Nat)
    (ids : List Nat) (ls ls' : State × Option drmModeEncoder) (code : Int)
    (h : init_drm_connectors w c a crtcs ls ids = Flow.ret code ls') :
    code = -1 ∧
    ∃ (id : Nat) (s1 : State), id ∈ ids ∧
      (w.drmModeGetConnector id).connection = DRM_MODE_CONNECTED ∧
      set_drm_format w s1 = some (false, ls'.1) :=
  (init_drm_connectors_invariant w c a crtcs (fun _ => True)
    (fun code x1 => code = -1 ∧
      ∃ (id : Nat) (s1 : State), id ∈ ids ∧
        (w.drmModeGetConnector id).connection = DRM_MODE_CONNECTED ∧
        set_drm_format w s1 = some (false, x1.1)) ids
    (fun _ _ _ _ _ _ => trivial)
    (fun x x1 id code hid _ hstep =>
      let ⟨hcode, _, hconn, _, _, hfmt, _⟩ :=
        init_drm_connector_ret w c a crtcs x x1 id code hstep
      ⟨hcode, id, _, hid, hconn, hfmt⟩)
    ls trivial).2 code ls' h

/-- The connector loop returns with -1 only. -/
theorem init_drm_connectors_ret_code (w : World) (c : Int) (a : Nat) (crtcs : List Nat)
    (ids : List Nat) (ls ls' : State × Option drmModeEncoder) (code : Int)
    (h : init_drm_connectors w c a crtcs ls ids = Flow.ret code ls') : code = -1 :=
  (init_drm_connectors_ret_failed w c a crtcs ids ls ls' code h).1

/-- When `init_drm` returns although its connector loop did not run to its end, a format
negotiation has failed: the state returned is the one left by a failing `set_drm_format`
in the pass for a connected connector. -/
theorem init_drm_stops_on_failure (w : World) (c : Int) (a : Nat) (cap : Nat) (r : Int)
    (st : State) (h : init_drm w c a (State.init cap) = some (r, st))
    (resources : drmModeRes) (hres : w.drmModeGetResources = some resources)
    (hfd : ¬ init_drm_open w modules 0 < 0)
    (hstop : Flow.isNext (init_drm_connectors w c a resources.crtcs
      ({ State.init cap with fd := init_drm_open w modules 0 }, none)
      resources.connectors) = false) :
    r = -1 ∧
    ∃ (id : Nat) (s1 : State), id ∈ resources.connectors ∧
      (w.drmModeGetConnector id).connection = DRM_MODE_CONNECTED ∧
      set_drm_format w s1 = some (false, st) := by
  unfold init_drm at h
  simp only at h
  have hfd' : ¬ init_drm_open w modules (State.init cap).fd < 0 := hfd
  rw [if_neg hfd', hres] at h
  simp only at h
  have hinit : ({ State.init cap with fd := init_drm_open w modules 0 } : State) =
      { State.init cap with fd := init_drm_open w modules (State.init cap).fd } := rfl
  rw [hinit] at hstop
  cases hc : init_drm_connectors w c a resources.crtcs
      ({ State.init cap with fd := init_drm_open w modules (State.init cap).fd }, none)
      resources.connectors with
  | undef => rw [hc] at h; cases h
  | ret code ls =>
    rw [hc] at h
    simp only [Option.some.injEq, Prod.mk.injEq] at h
    obtain ⟨h1, h2⟩ := h
    subst h1 h2
    exact init_drm_connectors_ret_failed w c a _ _ _ _ _ hc
  | next ls =>
    rw [hc] at hstop
    cases hstop

/-- The status of `init_drm`: 0 exactly when a module was opened, the resources were
enumerated, the connector loop ran to its end (no pass returned), and at least one display
is recorded. -/
theorem init_drm_status (w : World) (c : Int) (a : Nat) (cap : Nat) (r : Int)
    (st : State) (h : init_drm w c a (State.init cap) = some (r, st)) :
    r = 0 ↔
      (0 < st.ndisp ∧ ¬ init_drm_open w modules 0 < 0 ∧
        ∃ resources, w.drmModeGetResources = some resources ∧
          Flow.isNext (init_drm_connectors w c a resources.crtcs
            ({ State.init cap with fd := init_drm_open w modules 0 }, none)
            resources.connectors) = true) := by
  unfold init_drm at h
  simp only at h
  by_cases hfd : init_drm_open w modules 0 < 0
  · have hfd' : init_drm_open w modules (State.init cap).fd < 0 := hfd
    rw [if_pos hfd'] at h
    cases h
    exact ⟨fun h0 => (by cases h0), fun hr => absurd hfd hr.2.1⟩
  · have hfd' : ¬ init_drm_open w modules (State.init cap).fd < 0 := hfd
    rw [if_neg hfd'] at h
    cases hres : w.drmModeGetResources with
    | none =>
      rw [hres] at h
      cases h
      constructor
      · intro h0; cases h0
      · intro hr
        obtain ⟨_, _, res, hr1, _⟩ := hr
        cases hr1
    | some resources =>
      rw [hres] at h
      simp only at h
      have hinit : ({ State.init cap with fd := init_drm_open w modules 0 } : State) =
          { State.init cap with fd := init_drm_open w modules (State.init cap).fd } := rfl
      cases hc : init_drm_connectors w c a resources.crtcs
          ({ State.init cap with fd := init_drm_open w modules (State.init cap).fd }, none)
          resources.connectors with
      | undef => rw [hc] at h; cases h
      | ret code ls =>
        rw [hc] at h
        simp only [Option.some.injEq, Prod.mk.injEq] at h
        obtain ⟨h1, h2⟩ := h
        subst h1 h2
        have hcode := init_drm_connectors_ret_code w c a _ _ _ _ _ hc
        constructor
        · intro h0; rw [hcode] at h0; cases h0
        · intro hr
          obtain ⟨_, _, res, hr1, hr2⟩ := hr
          cases hr1
          rw [hinit, hc] at hr2
          cases hr2
      | next ls =>
        rw [hc] at h
        simp only at h
        by_cases hz : ls.1.ndisp = 0
        · rw [if_pos hz] at h
          cases h
          exact ⟨fun h0 => (by cases h0), fun hr => (by omega)⟩
        · rw [if_neg hz] at h
          cases h
          refine ⟨fun _ => ⟨Nat.pos_of_ne_zero hz, hfd, resources, rfl, ?_⟩, fun _ => rfl⟩
          rw [hinit, hc]
          rfl

/-- C5, amended: if a connector is requested and `init_drm` returns without any recorded
entry carrying that identity, then it has returned exactly what it returns when no
connector is requested (the same status, Display Set and `DISP_ID`), and the missing
connector is no cause of failure: the status is 0 exactly when a module was opened, the
resources were enumerated, the connector loop ran to its end and at least one connector is
recorded; and the loop stops before its end only with status -1, in the pass for a
connected connector whose format negotiation failed. -/
theorem init_drm_unobserved_request (w : World) (c : Int) (a : Nat) (cap : Nat) (r : Int)
    (st : State) (h : init_drm w c a (State.init cap) = some (r, st))
    (hno : ∀ i, i < st.ndisp → st.connector_id i ≠ (c % 4294967296).toNat) :
    init_drm w (-1) a (State.init cap) = some (r, st) ∧
    (r = 0 ↔
      (0 < st.ndisp ∧ ¬ init_drm_open w modules 0 < 0 ∧
        ∃ resources, w.drmModeGetResources = some resources ∧
          Flow.isNext (init_drm_connectors w c a resources.crtcs
            ({ State.init cap with fd := init_drm_open w modules 0 }, none)
            resources.connectors) = true)) ∧
    (∀ resources, w.drmModeGetResources = some resources →
      ¬ init_drm_open w modules 0 < 0 →
      Flow.isNext (init_drm_connectors w c a resources.crtcs
        ({ State.init cap with fd := init_drm_open w modules 0 }, none)
        resources.connectors) = false →
      r = -1 ∧
      ∃ (id : Nat) (s1 : State), id ∈ resources.connectors ∧
        (w.drmModeGetConnector id).connection = DRM_MODE_CONNECTED ∧
        set_drm_format w s1 = some (false, st)) :=
  ⟨init_drm_same_as_unrequested w c a cap r st h hno, init_drm_status w c a cap r st h,
   fun resources hres hfd hstop =>
     init_drm_stops_on_failure w c a cap r st h resources hres hfd hstop⟩

/-- Witness for C5: connector 9 requested on the dual device, with all outputs enabled;
the run is the unrequested run, and one recorded connector is enough for status 0 (the
single-output device with connector 9 requested). -/
theorem init_drm_unobserved_request_witness :
    init_drm dual_output 9 1 (State.init 0) =
      some (0, final_state (init_drm dual_output 9 1 (State.init 0))) ∧
    init_drm dual_output (-1) 1 (State.init 0) =
      some (0, final_state (init_drm dual_output 9 1 (State.init 0))) ∧
    summary (init_drm (single_output [DRM_FORMAT_XRGB8888]) 9 0 (State.init 0)) =
      some (0, 1, 0, [5, 0], [DRM_FORMAT_XRGB8888, 0]) ∧
    summary (init_drm dual_output_nv12 9 0 (State.init 0)) =
      some (-1, 1, 0, [5, 7], [DRM_FORMAT_XRGB8888, 0]) := by
  have hn : (final_state (init_drm dual_output 9 1 (State.init 0))).ndisp = 2 := by decide
  have h0 : (final_state (init_drm dual_output 9 1 (State.init 0))).connector_id 0 = 5 := by
    decide
  have h1 : (final_state (init_drm dual_output 9 1 (State.init 0))).connector_id 1 = 7 := by
    decide
  exact ⟨final_state_eq _ 0 (by decide),
    (init_drm_unobserved_request dual_output 9 1 0 0
      (final_state (init_drm dual_output 9 1 (State.init 0)))
      (final_state_eq _ 0 (by decide))
      (fun i hi => by
        have hi01 : i = 0 ∨ i = 1 := by omega
        rcases hi01 with rfl | rfl
        · rw [h0]; decide
        · rw [h1]; decide)).1,
    by decide, by decide⟩

/-! ## Discovery: failure of the format negotiation -/

theorem loop_state_eq (f : Flow Int (State × Option drmModeEncoder))
    (h : f.isNext = true) : f = Flow.next (loop_state f) := by
  cases f with
  | next ls => rfl
  | ret code ls => cases h
  | undef => cases h

theorem init_drm_connectors_append (w : World) (c : Int) (a : Nat) (crtcs : List Nat) :
    ∀ (pre rest : List Nat) (ls0 ls : State × Option drmModeEncoder),
      init_drm_connectors w c a crtcs ls0 pre = Flow.next ls →
      init_drm_connectors w c a crtcs ls0 (pre ++ rest) =
        init_drm_connectors w c a crtcs ls rest := by
  intro pre
  induction pre with
  | nil =>
    intro rest ls0 ls h
    simp only [init_drm_connectors] at h
    cases h
    rfl
  | cons id pre ih =>
    intro rest ls0 ls h
    simp only [init_drm_connectors, List.cons_append] at h ⊢
    cases hs : init_drm_connector w c a crtcs ls0 id with
    | undef => rw [hs] at h; cases h
    | ret code ls1 => rw [hs] at h; cases h
    | next ls1 =>
      rw [hs] at h
      simp only at h ⊢
      exact ih rest ls1 ls h

/-- C7: when the connector loop has fallen through for the connectors before `id`
(however many of them were recorded), the connector `id` is connected, an encoder with its
pipe was resolved for it, a slot is free, and `set_drm_format` fails on the slots written
for it, then `init_drm` returns -1 for the whole run: the connector is not skipped and the
connectors after it are not looked at. -/
theorem init_drm_format_failure_is_fatal (w : World) (c : Int) (a : Nat) (cap : Nat)
    (resources : drmModeRes) (pre post : List Nat) (id : Nat)
    (ls : State × Option drmModeEncoder) (encoder : drmModeEncoder) (s2 : State)
    (hfd : ¬ init_drm_open w modules 0 < 0)
    (hres : w.drmModeGetResources = some resources)
    (hids : resources.connectors = pre ++ id :: post)
    (hpre : init_drm_connectors w c a resources.crtcs
      ({ State.init cap with fd := init_drm_open w modules 0 }, none) pre = Flow.next ls)
    (hconn : (w.drmModeGetConnector id).connection = DRM_MODE_CONNECTED)
    (henc : (init_drm_encoders w resources.crtcs (w.drmModeGetConnector id) ls.2
      (w.drmModeGetConnector id).encoders).2 = some encoder)
    (hn : ls.1.ndisp < MAX_DISPLAYS)
    (hfmt : set_drm_format w (init_drm_record w ls.1
      (init_drm_encoders w resources.crtcs (w.drmModeGetConnector id) ls.2
        (w.drmModeGetConnector id).encoders).1 encoder) = some (false, s2)) :
    init_drm w c a (State.init cap) = some (-1, s2) := by
  have hstep : init_drm_connector w c a resources.crtcs ls id =
      Flow.ret (-1) (s2, some encoder) := by
    unfold init_drm_connector
    simp only [hconn, if_true, henc, Nat.not_le.mpr hn, if_false, hfmt]
  have hloop : init_drm_connectors w c a resources.crtcs
      ({ State.init cap with fd := init_drm_open w modules 0 }, none)
      resources.connectors = Flow.ret (-1) (s2, some encoder) := by
    rw [hids, init_drm_connectors_append w c a resources.crtcs pre (id :: post) _ ls hpre]
    simp only [init_drm_connectors, hstep]
  have hfd' : ¬ init_drm_open w modules (State.init cap).fd < 0 := hfd
  unfold init_drm
  simp only [hfd', if_false, hres]
  have hloop' : init_drm_connectors w c a resources.crtcs
      ({ State.init cap with fd := init_drm_open w modules (State.init cap).fd }, none)
      resources.connectors = Flow.ret (-1) (s2, some encoder) := hloop
  rw [hloop']

/-- Witness for C7: on the dual device whose second primary plane advertises NV12 only,
connector 5 is recorded, the negotiation fails for connector 7, and `init_drm` returns -1
with one display recorded. -/
theorem init_drm_format_failure_is_fatal_witness :
    init_drm dual_output_nv12 (-1) 0 (State.init 0) =
      some (-1, final_state (init_drm dual_output_nv12 (-1) 0 (State.init 0))) ∧
    (final_state (init_drm dual_output_nv12 (-1) 0 (State.init 0))).ndisp = 1 := by
  have hpre : init_drm_connectors dual_output_nv12 (-1) 0 [20, 21]
      ({ State.init 0 with fd := init_drm_open dual_output_nv12 modules 0 }, none) [5] =
      Flow.next (loop_state (init_drm_connectors dual_output_nv12 (-1) 0 [20, 21]
        ({ State.init 0 with fd := init_drm_open dual_output_nv12 modules 0 }, none) [5])) :=
    loop_state_eq _ (by decide)
  have hrun := init_drm_format_failure_is_fatal dual_output_nv12 (-1) 0 0
    { connectors := [5, 7], crtcs := [20, 21] } [5] [] 7 _
    { encoder_id := 11, crtc_id := 21, possible_crtcs := 2 }
    (final_state (init_drm dual_output_nv12 (-1) 0 (State.init 0)))
    (by decide) (by decide) (by decide) hpre (by decide) (by decide) (by decide)
    (final_state_eq _ false (by decide))
  exact ⟨hrun, by decide⟩

/-! ## Framebuffer cache -/

theorem registrations_append (s : FbState) (ud : Nat → Option drm_fb) (fb : drm_fb)
    (bo : Nat) :
    registrations { user_data := ud, registered := s.registered ++ [fb] } bo =
      registrations s bo + (if fb.bo = bo then 1 else 0) := by
  unfold registrations
  simp only [List.filter_append, List.length_append]
  by_cases h : fb.bo = bo
  · simp [h]
  · simp [h]

/-- A call on a buffer that already carries a registration returns it and changes
nothing. -/
theorem drm_fb_get_from_bo_cached (s : FbState) (bo : Nat) (fb : drm_fb) (addfb : Int × Nat)
    (h : s.user_data bo = some fb) : drm_fb_get_from_bo s bo addfb = (some fb, s) := by
  unfold drm_fb_get_from_bo
  rw [h]

/-- A single call keeps the registration attached to `bo`, if there is one, and registers
something for `bo` only if nothing was attached to it. -/
theorem drm_fb_get_from_bo_step (s : FbState) (bo' bo : Nat) (addfb : Int × Nat) :
    (∀ fb, s.user_data bo = some fb →
      (drm_fb_get_from_bo s bo' addfb).2.user_data bo = some fb ∧
      registrations (drm_fb_get_from_bo s bo' addfb).2 bo = registrations s bo) ∧
    (s.user_data bo = none →
      ((drm_fb_get_from_bo s bo' addfb).2.user_data bo = none ∧
        registrations (drm_fb_get_from_bo s bo' addfb).2 bo = registrations s bo) ∨
      ((drm_fb_get_from_bo s bo' addfb).2.user_data bo ≠ none ∧
        registrations (drm_fb_get_from_bo s bo' addfb).2 bo = registrations s bo + 1)) := by
  unfold drm_fb_get_from_bo
  cases hud : s.user_data bo' with
  | some fb' =>
    simp only
    exact ⟨fun fb h => ⟨h, trivial⟩, fun h => Or.inl ⟨h, trivial⟩⟩
  | none =>
    simp only
    by_cases hret : addfb.1 ≠ 0
    · rw [if_pos hret]
      exact ⟨fun fb h => ⟨h, rfl⟩, fun h => Or.inl ⟨h, rfl⟩⟩
    · rw [if_neg hret]
      simp only [registrations_append]
      by_cases hbo : bo' = bo
      · subst hbo
        constructor
        · intro fb h; rw [hud] at h; cases h
        · intro _
          refine Or.inr ⟨?_, by simp⟩
          rw [store_same]; simp
      · have hbo' : bo ≠ bo' := fun h => hbo h.symm
        constructor
        · intro fb h
          exact ⟨by rw [store_other _ _ _ _ hbo']; exact h, by simp [hbo]⟩
        · intro h
          exact Or.inl ⟨by rw [store_other _ _ _ _ hbo']; exact h, by simp [hbo]⟩

/-- Once a registration is attached to `bo`, no sequence of calls replaces it or registers
anything more for `bo`. -/
theorem drm_fb_get_from_bo_calls_cached (bo : Nat) :
    ∀ (calls : List (Nat × (Int × Nat))) (s : FbState) (fb : drm_fb),
      s.user_data bo = some fb →
      (drm_fb_get_from_bo_calls s calls).user_data bo = some fb ∧
      registrations (drm_fb_get_from_bo_calls s calls) bo = registrations s bo := by
  intro calls
  induction calls with
  | nil => intro s fb h; exact ⟨h, rfl⟩
  | cons call rest ih =>
    intro s fb h
    obtain ⟨h1, h2⟩ := (drm_fb_get_from_bo_step s call.1 bo call.2).1 fb h
    obtain ⟨h3, h4⟩ := ih _ fb h1
    exact ⟨h3, h4.trans h2⟩

/-- From a state in which `bo` has nothing attached and nothing registered, any sequence of
calls registers at most one framebuffer for `bo`. -/
theorem drm_fb_get_from_bo_calls_at_most_one (bo : Nat) :
    ∀ (calls : List (Nat × (Int × Nat))) (s : FbState),
      s.user_data bo = none → registrations s bo = 0 →
      registrations (drm_fb_get_from_bo_calls s calls) bo ≤ 1 := by
  intro calls
  induction calls with
  | nil => intro s _ h0; simp [drm_fb_get_from_bo_calls, h0]
  | cons call rest ih =>
    intro s hnone h0
    rcases (drm_fb_get_from_bo_step s call.1 bo call.2).2 hnone with ⟨h1, h2⟩ | ⟨h1, h2⟩
    · exact ih _ h1 (h2.trans h0)
    · obtain ⟨fb, hfb⟩ := Option.ne_none_iff_exists'.mp h1
      have := (drm_fb_get_from_bo_calls_cached bo rest _ fb hfb).2
      show registrations (drm_fb_get_from_bo_calls _ rest) bo ≤ 1
      omega

/-- C9: over the state holding each buffer's attached registration, for every buffer and
every sequence of `drm_fb_get_from_bo` calls (on it and on other buffers, with
`drmModeAddFB2` failing or succeeding at each call), at most one framebuffer is ever
registered for that buffer; once a registration is attached, every later call on the
buffer returns that same registration and leaves the state untouched, and no sequence of
later calls replaces it or registers anything more for the buffer. -/
theorem drm_fb_get_from_bo_registers_once (bo : Nat) (calls : List (Nat × (Int × Nat))) :
    registrations (drm_fb_get_from_bo_calls FbState.init calls) bo ≤ 1 ∧
    (∀ (s : FbState) (fb : drm_fb) (addfb : Int × Nat), s.user_data bo = some fb →
      drm_fb_get_from_bo s bo addfb = (some fb, s)) ∧
    (∀ (s : FbState) (fb : drm_fb) (later : List (Nat × (Int × Nat))),
      s.user_data bo = some fb →
      (drm_fb_get_from_bo_calls s later).user_data bo = some fb ∧
      registrations (drm_fb_get_from_bo_calls s later) bo = registrations s bo) :=
  ⟨drm_fb_get_from_bo_calls_at_most_one bo calls FbState.init rfl rfl,
   fun s fb addfb h => drm_fb_get_from_bo_cached s bo fb addfb h,
   fun s fb later h => drm_fb_get_from_bo_calls_cached bo later s fb h⟩

/-- Witness for C9: buffer 1 is presented four times; the first `drmModeAddFB2` fails, the
second creates framebuffer 41, and the later calls find it attached. -/
theorem drm_fb_get_from_bo_registers_once_witness :
    registrations (drm_fb_get_from_bo_calls FbState.init
      [(1, (-22, 0)), (1, (0, 41)), (2, (0, 42)), (1, (0, 43)), (1, (0, 44))]) 1 = 1 ∧
    (drm_fb_get_from_bo_calls FbState.init [(1, (-22, 0)), (1, (0, 41))]).user_data 1 =
      some { bo := 1, fb_id := 41 } ∧
    (drm_fb_get_from_bo (drm_fb_get_from_bo_calls FbState.init [(1, (-22, 0)), (1, (0, 41))])
      1 (0, 43)).1 = some { bo := 1, fb_id := 41 } :=
  ⟨by decide, by decide,
   congrArg Prod.fst
     ((drm_fb_get_from_bo_registers_once 1 []).2.1
       (drm_fb_get_from_bo_calls FbState.init [(1, (-22, 0)), (1, (0, 41))])
       { bo := 1, fb_id := 41 } (0, 43) (by decide))⟩

/-! ## Capacity of the per-display arrays -/

/-- C14, the code at the failing input: on the device with five connected outputs the
connector loop falls through for the first four connectors with `drm.ndisp` at
`MAX_DISPLAYS`, the body for the fifth connector writes the slots at index 4 and is
undefined, and so is the run of `init_drm`. -/
theorem init_drm_fifth_display_out_of_bounds :
    Flow.isNext (init_drm_connectors five_outputs (-1) 0 [21, 22, 23, 24, 25]
      ({ State.init 0 with fd := 3 }, none) [1, 2, 3, 4]) = true ∧
    (loop_state (init_drm_connectors five_outputs (-1) 0 [21, 22, 23, 24, 25]
      ({ State.init 0 with fd := 3 }, none) [1, 2, 3, 4])).1.ndisp = MAX_DISPLAYS ∧
    Flow.isUndef (init_drm_connector five_outputs (-1) 0 [21, 22, 23, 24, 25]
      (loop_state (init_drm_connectors five_outputs (-1) 0 [21, 22, 23, 24, 25]
        ({ State.init 0 with fd := 3 }, none) [1, 2, 3, 4])) 5) = true ∧
    (init_drm five_outputs (-1) 0 (State.init 0)).isNone = true :=
  ⟨by decide, by decide, by decide, by decide⟩

/-! ## The loop of `main`: facts -/

/-- On a platform where every call succeeds the loop never leaves `while (1)`: after any
number of iterations it is still running, one complete cycle per iteration. -/
theorem main_loop_ready (s : State) (m : drmModeModeInfo) (hd : ¬ MAX_DISPLAYS ≤ s.DISP_ID)
    (hm : s.mode s.DISP_ID = some m) :
    ∀ fuel cycles, main_loop ready_platform s fuel cycles = Run.running (cycles + fuel) := by
  intro fuel
  induction fuel with
  | zero => intro cycles; rfl
  | succ fuel ih =>
    intro cycles
    have hgbm : init_gbm ready_platform s cycles = some 0 := by
      unfold init_gbm
      rw [if_neg hd, hm]
      rfl
    have hgl : init_gl (ready_platform.egl cycles) = 0 := rfl
    simp only [main_loop, hgbm, hgl, ne_eq, not_true_eq_false, if_false]
    rw [ih (cycles + 1)]
    congr 1
    omega

/-- C11, the code at the failing input: with a frame budget of 3 on the single-output
device and a platform where every call succeeds, `main` is still inside its loop after any
number of iterations, with as many complete cycles as iterations, so it runs past 3 cycles
and never reaches the teardown; and for every device, platform and option values the run
of `main` is the same whatever `frame_count` is. -/
theorem main_ignores_frame_count :
    (∀ fuel : Nat,
      main (single_output [DRM_FORMAT_XRGB8888]) ready_platform
        { all_display := 0, connector_id := -1, frame_count := 3 } fuel =
      Run.running fuel) ∧
    main (single_output [DRM_FORMAT_XRGB8888]) ready_platform
      { all_display := 0, connector_id := -1, frame_count := 3 } 4 = Run.running 4 ∧
    (∀ (w : World) (p : Platform) (opts : Options) (n : Int) (fuel : Nat),
      main w p { opts with frame_count := n } fuel = main w p opts fuel) := by
  refine ⟨?_, by decide, fun _ _ _ _ _ => rfl⟩
  intro fuel
  have hrun := final_state_eq
    (init_drm (single_output [DRM_FORMAT_XRGB8888]) (-1) 0 (State.init 0)) 0 (by decide)
  have hd : ¬ MAX_DISPLAYS ≤
      (final_state (init_drm (single_output [DRM_FORMAT_XRGB8888]) (-1) 0
        (State.init 0))).DISP_ID := by decide
  have hm : (final_state (init_drm (single_output [DRM_FORMAT_XRGB8888]) (-1) 0
      (State.init 0))).mode
      (final_state (init_drm (single_output [DRM_FORMAT_XRGB8888]) (-1) 0
        (State.init 0))).DISP_ID = some { hdisplay := 1920, vdisplay := 1080 } := by decide
  unfold main
  simp only
  rw [hrun]
  simp only [ne_eq, not_true_eq_false, if_false, hd, hm]
  rw [main_loop_ready _ _ hd hm]
  congr 1
  omega

/-! ## Discovery: the pipe of an encoder without one -/

/-- For a pipe index below 32 the mask test of the pipe loop is the test of bit `k`. -/
theorem init_drm_mask_test (m k : Nat) (hk : k < 32) :
    m &&& ((1 <<< k) % 4294967296) = 0 ↔ m.testBit k = false := by
  have hlt : 2 ^ k < 4294967296 := by
    have : 2 ^ k < 2 ^ 32 := Nat.pow_lt_pow_right (by norm_num) hk
    norm_num at this
    exact this
  have hpos : 0 < 2 ^ k := Nat.two_pow_pos k
  rw [Nat.one_shiftLeft, Nat.mod_eq_of_lt hlt, Nat.and_two_pow]
  cases m.testBit k with
  | false => simp
  | true => simp

/-- The pipe loop stops at the first pipe whose bit is set in the mask. -/
theorem init_drm_find_crtc_first (m : Nat) :
    ∀ (crtcs : List Nat) (k0 : Nat), k0 + crtcs.length ≤ 32 →
      ∀ (k pipe : Nat), crtcs[k]? = some pipe → m.testBit (k0 + k) = true →
        (∀ j, j < k → m.testBit (k0 + j) = false) →
        init_drm_find_crtc m crtcs k0 = pipe := by
  intro crtcs
  induction crtcs with
  | nil => intro k0 _ k pipe hk; simp at hk
  | cons x rest ih =>
    intro k0 hlen k pipe hk hbit hfirst
    simp only [List.length_cons] at hlen
    cases k with
    | zero =>
      simp only [List.getElem?_cons_zero, Option.some.injEq] at hk
      subst hk
      have hne : ¬ (m &&& ((1 <<< k0) % 4294967296) = 0) := by
        rw [init_drm_mask_test m k0 (by omega)]
        simpa using hbit
      simp only [init_drm_find_crtc, hne, if_false]
    | succ k =>
      simp only [List.getElem?_cons_succ] at hk
      have h0 : m &&& ((1 <<< k0) % 4294967296) = 0 := by
        rw [init_drm_mask_test m k0 (by omega)]
        simpa using hfirst 0 (by omega)
      simp only [init_drm_find_crtc, h0, if_true]
      apply ih (k0 + 1) (by omega) k pipe hk
      · rw [← hbit]; congr 1; omega
      · intro j hj
        rw [← hfirst (j + 1) (by omega)]; congr 1; omega

/-- The pipe loop leaves `encoder->crtc_id` at 0 when no pipe has its bit set. -/
theorem init_drm_find_crtc_none (m : Nat) :
    ∀ (crtcs : List Nat) (k0 : Nat), k0 + crtcs.length ≤ 32 →
      (∀ j, j < crtcs.length → m.testBit (k0 + j) = false) →
      init_drm_find_crtc m crtcs k0 = 0 := by
  intro crtcs
  induction crtcs with
  | nil => intro _ _ _; rfl
  | cons x rest ih =>
    intro k0 hlen hnone
    simp only [List.length_cons] at hlen hnone
    have h0 : m &&& ((1 <<< k0) % 4294967296) = 0 := by
      rw [init_drm_mask_test m k0 (by omega)]
      simpa using hnone 0 (by omega)
    simp only [init_drm_find_crtc, h0, if_true]
    apply ih (k0 + 1) (by omega)
    intro j hj
    rw [← hnone (j + 1) (by omega)]; congr 1; omega

/-- One pass of the encoder loop for a connector that has an encoder assigned. -/
theorem init_drm_encoders_step (w : World) (crtcs : List Nat) (connector : drmModeConnector)
    (enc0 : Option drmModeEncoder) (j : Nat) (rest : List Nat)
    (hcon : connector.encoder_id ≠ 0) :
    init_drm_encoders w crtcs connector enc0 (j :: rest) =
      if (w.drmModeGetEncoder j).encoder_id = connector.encoder_id then
        if (w.drmModeGetEncoder j).crtc_id = 0 then
          if init_drm_find_crtc (w.drmModeGetEncoder j).possible_crtcs crtcs 0 = 0 then
            init_drm_encoders w crtcs connector none rest
          else
            (connector, some { w.drmModeGetEncoder j with
              crtc_id := init_drm_find_crtc (w.drmModeGetEncoder j).possible_crtcs crtcs 0 })
        else (connector, some (w.drmModeGetEncoder j))
      else init_drm_encoders w crtcs connector none rest := by
  simp only [init_drm_encoders, if_neg hcon]

/-- One pass of the encoder loop for a connector that has no encoder assigned: the
candidate is adopted. -/
theorem init_drm_encoders_step_adopt (w : World) (crtcs : List Nat)
    (connector : drmModeConnector) (enc0 : Option drmModeEncoder) (j : Nat)
    (rest : List Nat) (hcon : connector.encoder_id = 0) :
    init_drm_encoders w crtcs connector enc0 (j :: rest) =
      if (w.drmModeGetEncoder j).crtc_id = 0 then
        if init_drm_find_crtc (w.drmModeGetEncoder j).possible_crtcs crtcs 0 = 0 then
          init_drm_encoders w crtcs
            { connector with encoder_id := (w.drmModeGetEncoder j).encoder_id } none rest
        else
          ({ connector with encoder_id := (w.drmModeGetEncoder j).encoder_id },
            some { w.drmModeGetEncoder j with
              crtc_id := init_drm_find_crtc (w.drmModeGetEncoder j).possible_crtcs crtcs 0 })
      else
        ({ connector with encoder_id := (w.drmModeGetEncoder j).encoder_id },
          some (w.drmModeGetEncoder j)) := by
  simp only [init_drm_encoders, if_pos hcon, if_true]

/-- The encoder loop for a connector whose assigned encoder `adopted` has no pipe: it ends
with that encoder on the pipe found by the pipe loop, or with no encoder when the pipe loop
finds none. -/
theorem init_drm_encoders_assigned (w : World) (crtcs : List Nat) (adopted : Nat)
    (ha : adopted ≠ 0) (hfree : (w.drmModeGetEncoder adopted).crtc_id = 0) :
    ∀ (ids : List Nat) (connector : drmModeConnector),
      (∀ j ∈ ids, (w.drmModeGetEncoder j).encoder_id = j) →
      connector.encoder_id = adopted →
      (init_drm_find_crtc (w.drmModeGetEncoder adopted).possible_crtcs crtcs 0 ≠ 0 →
        adopted ∈ ids →
        (init_drm_encoders w crtcs connector none ids).2 =
          some { w.drmModeGetEncoder adopted with
            crtc_id := init_drm_find_crtc (w.drmModeGetEncoder adopted).possible_crtcs
              crtcs 0 }) ∧
      (init_drm_find_crtc (w.drmModeGetEncoder adopted).possible_crtcs crtcs 0 = 0 →
        (init_drm_encoders w crtcs connector none ids).2 = none) := by
  intro ids
  induction ids with
  | nil =>
    intro connector _ _
    exact ⟨fun _ hmem => absurd hmem (List.not_mem_nil _), fun _ => rfl⟩
  | cons j rest ih =>
    intro connector hwf hcon
    have hj : (w.drmModeGetEncoder j).encoder_id = j := hwf j (List.mem_cons_self _ _)
    have hcon0 : connector.encoder_id ≠ 0 := by rw [hcon]; exact ha
    have ih' := ih connector (fun x hx => hwf x (List.mem_cons_of_mem _ hx)) hcon
    rw [init_drm_encoders_step w crtcs connector none j rest hcon0, hj, hcon]
    by_cases hja : j = adopted
    · rw [if_pos hja, hja, if_pos hfree]
      constructor
      · intro hf _
        rw [if_neg hf]
      · intro hf
        rw [if_pos hf]
        exact ih'.2 hf
    · rw [if_neg hja]
      constructor
      · intro hf hmem
        rcases List.mem_cons.mp hmem with h | h
        · exact absurd h.symm hja
        · exact ih'.1 hf h
      · intro hf
        exact ih'.2 hf

/-- On a non-empty candidate list the encoder loop does not read the value the local
`encoder` had on entry. -/
theorem init_drm_encoders_cons (w : World) (crtcs : List Nat) (connector : drmModeConnector)
    (enc0 : Option drmModeEncoder) (j : Nat) (rest : List Nat) :
    init_drm_encoders w crtcs connector enc0 (j :: rest) =
      init_drm_encoders w crtcs connector none (j :: rest) := by
  simp only [init_drm_encoders]

/-- The encoder loop for a connector whose adopted encoder (the assigned one, or the first
candidate when none is assigned) has no pipe. -/
theorem init_drm_encoders_adopted (w : World) (crtcs : List Nat)
    (connector : drmModeConnector) (enc0 : Option drmModeEncoder) (adopted : Nat)
    (hwf : ∀ j ∈ connector.encoders, j ≠ 0 ∧ (w.drmModeGetEncoder j).encoder_id = j)
    (hmem : adopted ∈ connector.encoders)
    (hadopt : connector.encoder_id = adopted ∨
      (connector.encoder_id = 0 ∧ connector.encoders.head? = some adopted))
    (hfree : (w.drmModeGetEncoder adopted).crtc_id = 0) :
    (init_drm_find_crtc (w.drmModeGetEncoder adopted).possible_crtcs crtcs 0 ≠ 0 →
      (init_drm_encoders w crtcs connector enc0 connector.encoders).2 =
        some { w.drmModeGetEncoder adopted with
          crtc_id := init_drm_find_crtc (w.drmModeGetEncoder adopted).possible_crtcs
            crtcs 0 }) ∧
    (init_drm_find_crtc (w.drmModeGetEncoder adopted).possible_crtcs crtcs 0 = 0 →
      (init_drm_encoders w crtcs connector enc0 connector.encoders).2 = none) := by
  have ha : adopted ≠ 0 := (hwf adopted hmem).1
  have hwf' : ∀ j ∈ connector.encoders, (w.drmModeGetEncoder j).encoder_id = j :=
    fun j hj => (hwf j hj).2
  generalize connector.encoders = ids at hwf' hmem hadopt
  cases ids with
  | nil => cases hmem
  | cons j rest =>
    rw [init_drm_encoders_cons]
    rcases hadopt with hcon | ⟨hcon, hhead⟩
    · exact ⟨fun hf => (init_drm_encoders_assigned w crtcs adopted ha hfree (j :: rest)
          connector hwf' hcon).1 hf hmem,
        (init_drm_encoders_assigned w crtcs adopted ha hfree (j :: rest) connector hwf'
          hcon).2⟩
    · simp only [List.head?_cons, Option.some.injEq] at hhead
      have hj : (w.drmModeGetEncoder j).encoder_id = j := hwf' j (List.mem_cons_self _ _)
      rw [init_drm_encoders_step_adopt w crtcs connector none j rest hcon, hhead,
        if_pos hfree]
      constructor
      · intro hf
        rw [if_neg hf]
      · intro hf
        rw [if_pos hf]
        exact (init_drm_encoders_assigned w crtcs adopted ha hfree rest
          { connector with encoder_id := (w.drmModeGetEncoder adopted).encoder_id }
          (fun x hx => hwf' x (List.mem_cons_of_mem _ hx))
          (by rw [← hhead]; exact hj)).2 hf

/-- A connected connector for which the encoder loop ends without an encoder is passed
over: the loop body falls through with the globals as they were. -/
theorem init_drm_connector_unusable (w : World) (c : Int) (a : Nat) (crtcs : List Nat)
    (ls : State × Option drmModeEncoder) (id : Nat)
    (hconn : (w.drmModeGetConnector id).connection = DRM_MODE_CONNECTED)
    (henc : (init_drm_encoders w crtcs (w.drmModeGetConnector id) ls.2
      (w.drmModeGetConnector id).encoders).2 = none) :
    init_drm_connector w c a crtcs ls id = Flow.next (ls.1, none) := by
  unfold init_drm_connector
  simp only [hconn, if_true, henc]

/-- When the loop body falls through after the encoder loop ended with the encoder `enc`,
it has recorded one display at `drm.ndisp`, with `enc` and its pipe. -/
theorem init_drm_connector_recorded (w : World) (c : Int) (a : Nat) (crtcs : List Nat)
    (ls ls1 : State × Option drmModeEncoder) (id : Nat) (enc : drmModeEncoder)
    (henc : (init_drm_encoders w crtcs (w.drmModeGetConnector id) ls.2
      (w.drmModeGetConnector id).encoders).2 = some enc)
    (hconn : (w.drmModeGetConnector id).connection = DRM_MODE_CONNECTED)
    (h : init_drm_connector w c a crtcs ls id = Flow.next ls1) :
    ls1.1.ndisp = ls.1.ndisp + 1 ∧ ls1.1.crtc_id ls.1.ndisp = enc.crtc_id ∧
    ls1.1.encoder ls.1.ndisp = some enc ∧ ls1.2 = some enc ∧
    SameSlots ls.1.ndisp ls.1 ls1.1 := by
  unfold init_drm_connector at h
  simp only [hconn, if_true, henc] at h
  by_cases hn : MAX_DISPLAYS ≤ ls.1.ndisp
  · rw [if_pos hn] at h; cases h
  · rw [if_neg hn] at h
    generalize init_drm_encoders w crtcs (w.drmModeGetConnector id) ls.2
      (w.drmModeGetConnector id).encoders = R at h
    cases hfmt : set_drm_format w (init_drm_record w ls.1 R.1 enc) with
    | none => simp only [hfmt] at h; cases h
    | some r =>
      obtain ⟨b, s2⟩ := r
      cases b with
      | false => simp only [hfmt] at h; cases h
      | true =>
        simp only [hfmt] at h
        rcases set_drm_format_spec w _ s2 true hfmt with ⟨hb, _⟩ |
          ⟨_, _, _, _, _, f, _, _, _, _, _, _, _, _, hs2⟩
        · cases hb
        · cases hcur : s2.mode s2.ndisp with
          | none => simp only [hcur] at h; cases h
          | some cur =>
            simp only [hcur] at h
            cases hprim : init_drm_primary c a s2 cur with
            | none => simp only [hprim] at h; cases h
            | some s3 =>
              simp only [hprim] at h
              cases h
              have hs3 := init_drm_primary_some c a s2 s3 cur hcur hprim
              rw [hs3, hs2]
              refine ⟨rfl, store_same _ _ _, store_same _ _ _, rfl, ?_⟩
              exact init_drm_record_same_slots w ls.1 R.1 enc _ _ _ _
                (fun i hi => store_other _ _ _ _ (Nat.ne_of_lt hi))

/-- C13: for a connected connector whose adopted encoder (the encoder assigned to the
connector, or its first candidate when none is assigned) has no pipe assigned, on a device
whose candidate identifiers are non-zero and name the encoders they return, with at most 32
pipes, none of identifier 0: the encoder loop resolves the first pipe of the list (lowest
index `k`) whose bit `k` is set in the encoder's `possible_crtcs`, and that pipe is what
the loop body records in `drm.crtc_id[drm.ndisp]` when it records the connector; if no
pipe of the list has its bit set, the connector is not added and the loop body falls
through to the next connector with the globals as they were. -/
theorem init_drm_resolves_first_capable_pipe (w : World) (c : Int) (a : Nat)
    (crtcs : List Nat) (ls : State × Option drmModeEncoder) (id adopted : Nat)
    (hconn : (w.drmModeGetConnector id).connection = DRM_MODE_CONNECTED)
    (hwf : ∀ j ∈ (w.drmModeGetConnector id).encoders,
      j ≠ 0 ∧ (w.drmModeGetEncoder j).encoder_id = j)
    (hmem : adopted ∈ (w.drmModeGetConnector id).encoders)
    (hadopt : (w.drmModeGetConnector id).encoder_id = adopted ∨
      ((w.drmModeGetConnector id).encoder_id = 0 ∧
        (w.drmModeGetConnector id).encoders.head? = some adopted))
    (hfree : (w.drmModeGetEncoder adopted).crtc_id = 0)
    (hcount : crtcs.length ≤ 32) (hpipes : ∀ x ∈ crtcs, x ≠ 0) :
    (∀ (k pipe : Nat), crtcs[k]? = some pipe →
      (w.drmModeGetEncoder adopted).possible_crtcs.testBit k = true →
      (∀ j, j < k → (w.drmModeGetEncoder adopted).possible_crtcs.testBit j = false) →
      (init_drm_encoders w crtcs (w.drmModeGetConnector id) ls.2
        (w.drmModeGetConnector id).encoders).2 =
        some { w.drmModeGetEncoder adopted with crtc_id := pipe } ∧
      ∀ ls1, init_drm_connector w c a crtcs ls id = Flow.next ls1 →
        ls1.1.ndisp = ls.1.ndisp + 1 ∧ ls1.1.crtc_id ls.1.ndisp = pipe) ∧
    ((∀ k, k < crtcs.length →
        (w.drmModeGetEncoder adopted).possible_crtcs.testBit k = false) →
      init_drm_connector w c a crtcs ls id = Flow.next (ls.1, none)) := by
  have key := init_drm_encoders_adopted w crtcs (w.drmModeGetConnector id) ls.2 adopted
    hwf hmem hadopt hfree
  constructor
  · intro k pipe hk hbit hfirst
    have hfind : init_drm_find_crtc (w.drmModeGetEncoder adopted).possible_crtcs crtcs 0 =
        pipe :=
      init_drm_find_crtc_first _ crtcs 0 (by omega) k pipe hk
        (by rw [Nat.zero_add]; exact hbit)
        (fun j hj => by rw [Nat.zero_add]; exact hfirst j hj)
    have hne : pipe ≠ 0 := hpipes pipe (List.getElem?_mem hk)
    have henc := key.1 (by rw [hfind]; exact hne)
    rw [hfind] at henc
    refine ⟨henc, ?_⟩
    intro ls1 h
    obtain ⟨h1, h2, _⟩ := init_drm_connector_recorded w c a crtcs ls ls1 id _ henc hconn h
    exact ⟨h1, h2⟩
  · intro hnone
    have hfind : init_drm_find_crtc (w.drmModeGetEncoder adopted).possible_crtcs crtcs 0 =
        0 :=
      init_drm_find_crtc_none _ crtcs 0 (by omega)
        (fun j hj => by rw [Nat.zero_add]; exact hnone j hj)
    exact init_drm_connector_unusable w c a crtcs ls id hconn (key.2 hfind)

/-- Witness for C13: connector 5 adopts its first candidate, encoder 10, which has no pipe;
with the mask 2 the second pipe of the list, 21, is resolved and recorded, and with the
mask 0 the connector is passed over. -/
theorem init_drm_resolves_first_capable_pipe_witness :
    (init_drm_encoders (free_encoder 2) [20, 21] ((free_encoder 2).drmModeGetConnector 5)
      none ((free_encoder 2).drmModeGetConnector 5).encoders).2 =
      some { encoder_id := 10, crtc_id := 21, possible_crtcs := 2 } ∧
    (final_state (init_drm (free_encoder 2) (-1) 0 (State.init 0))).crtc_id 0 = 21 ∧
    init_drm_connector (free_encoder 0) (-1) 0 [20, 21] (State.init 0, none) 5 =
      Flow.next (State.init 0, none) ∧
    summary (init_drm (free_encoder 0) (-1) 0 (State.init 0)) =
      some (-1, 0, 0, [0, 0], [0, 0]) :=
  ⟨((init_drm_resolves_first_capable_pipe (free_encoder 2) (-1) 0 [20, 21]
      (State.init 0, none) 5 10 (by decide) (by decide) (by decide) (by decide) (by decide)
      (by decide) (by decide)).1 1 21 (by decide) (by decide) (by decide)).1,
   by decide,
   (init_drm_resolves_first_capable_pipe (free_encoder 0) (-1) 0 [20, 21]
      (State.init 0, none) 5 10 (by decide) (by decide) (by decide) (by decide) (by decide)
      (by decide) (by decide)).2 (by decide),
   by decide⟩

/-! ## Discovery: the pipes of the recorded entries -/

/-- The encoder loop ends with a resolved encoder, if with any. -/
theorem init_drm_encoders_resolved (w : World) (crtcs : List Nat) :
    ∀ (ids : List Nat) (connector : drmModeConnector) (enc0 : Option drmModeEncoder),
      (∀ e, enc0 = some e → ResolvedEncoder w crtcs e) →
      ∀ e, (init_drm_encoders w crtcs connector enc0 ids).2 = some e →
        ResolvedEncoder w crtcs e := by
  intro ids
  induction ids with
  | nil => intro connector enc0 h0 e he; exact h0 e he
  | cons j rest ih =>
    intro connector enc0 _ e he
    have hnone : ∀ x : drmModeEncoder, (none : Option drmModeEncoder) = some x →
        ResolvedEncoder w crtcs x := fun _ hx => by cases hx
    have hfound : ∀ (con : drmModeConnector),
        (if (w.drmModeGetEncoder j).crtc_id = 0 then
          if init_drm_find_crtc (w.drmModeGetEncoder j).possible_crtcs crtcs 0 = 0 then
            init_drm_encoders w crtcs con none rest
          else
            (con, some { w.drmModeGetEncoder j with
              crtc_id := init_drm_find_crtc (w.drmModeGetEncoder j).possible_crtcs crtcs 0 })
        else (con, some (w.drmModeGetEncoder j))).2 = some e →
        ResolvedEncoder w crtcs e := by
      intro con hcase
      by_cases h2 : (w.drmModeGetEncoder j).crtc_id = 0
      · rw [if_pos h2] at hcase
        by_cases h3 : init_drm_find_crtc (w.drmModeGetEncoder j).possible_crtcs crtcs 0 = 0
        · rw [if_pos h3] at hcase
          exact ih _ none hnone e hcase
        · rw [if_neg h3] at hcase
          simp only [Option.some.injEq] at hcase
          subst hcase
          exact ⟨h3, j, Or.inr ⟨h2, rfl⟩⟩
      · rw [if_neg h2] at hcase
        simp only [Option.some.injEq] at hcase
        subst hcase
        exact ⟨h2, j, Or.inl ⟨h2, rfl⟩⟩
    by_cases hcon : connector.encoder_id = 0
    · rw [init_drm_encoders_step_adopt w crtcs connector enc0 j rest hcon] at he
      exact hfound _ he
    · rw [init_drm_encoders_step w crtcs connector enc0 j rest hcon] at he
      by_cases h1 : (w.drmModeGetEncoder j).encoder_id = connector.encoder_id
      · rw [if_pos h1] at he
        exact hfound _ he
      · rw [if_neg h1] at he
        exact ih _ none hnone e he

theorem init_drm_connector_next_resolved (w : World) (c : Int) (a : Nat)
    (crtcs : List Nat) (ls ls1 : State × Option drmModeEncoder) (id : Nat)
    (hI : ResolvedEntries w crtcs ls)
    (h : init_drm_connector w c a crtcs ls id = Flow.next ls1) :
    ResolvedEntries w crtcs ls1 := by
  by_cases hconn : (w.drmModeGetConnector id).connection = DRM_MODE_CONNECTED
  · cases henc : (init_drm_encoders w crtcs (w.drmModeGetConnector id) ls.2
        (w.drmModeGetConnector id).encoders).2 with
    | none =>
      rw [init_drm_connector_unusable w c a crtcs ls id hconn henc] at h
      cases h
      exact ⟨fun e he => (by cases he), hI.2⟩
    | some enc =>
      have hres : ResolvedEncoder w crtcs enc :=
        init_drm_encoders_resolved w crtcs _ _ ls.2 hI.1 enc henc
      obtain ⟨h1, h2, h3, h4, hslots⟩ :=
        init_drm_connector_recorded w c a crtcs ls ls1 id enc henc hconn h
      refine ⟨fun e he => by rw [h4] at he; cases he; exact hres, ?_⟩
      intro i hi
      by_cases hlt : i < ls.1.ndisp
      · obtain ⟨e, he1, he2, he3⟩ := hI.2 i hlt
        obtain ⟨s1, _, s3, _⟩ := hslots i hlt
        exact ⟨e, s3.trans he1, s1.trans he2, he3⟩
      · have hieq : i = ls.1.ndisp := by omega
        subst hieq
        exact ⟨enc, h3, h2, hres⟩
  · unfold init_drm_connector at h
    simp only [hconn, if_false] at h
    cases h
    exact hI

theorem init_drm_connector_ret_resolved (w : World) (c : Int) (a : Nat)
    (crtcs : List Nat) (ls ls1 : State × Option drmModeEncoder) (id : Nat) (code : Int)
    (hI : ResolvedEntries w crtcs ls)
    (h : init_drm_connector w c a crtcs ls id = Flow.ret code ls1) :
    ∀ i, i < ls1.1.ndisp →
      ∃ e, ls1.1.encoder i = some e ∧ ls1.1.crtc_id i = e.crtc_id ∧
        ResolvedEncoder w crtcs e := by
  obtain ⟨hn, hslots⟩ := (init_drm_connector_frame w c a crtcs ls id).2 code ls1 h
  intro i hi
  rw [hn] at hi
  obtain ⟨e, he1, he2, he3⟩ := hI.2 i hi
  obtain ⟨s1, _, s3, _⟩ := hslots i hi
  exact ⟨e, s3.trans he1, s1.trans he2, he3⟩

/-- Every return of `init_drm` on the initial globals leaves in each recorded slot a
resolved encoder of the device and its pipe. -/
theorem init_drm_resolved_entries (w : World) (c : Int) (a : Nat) (cap : Nat) (r : Int)
    (st : State) (h : init_drm w c a (State.init cap) = some (r, st)) :
    ∀ i, i < st.ndisp →
      ∃ e, st.encoder i = some e ∧ st.crtc_id i = e.crtc_id ∧
        ResolvedEncoder w w.crtcs e := by
  have h0 : ∀ fd : Int, ResolvedEntries w w.crtcs
      ({ State.init cap with fd := fd }, none) :=
    fun fd => ⟨fun e he => (by cases he), fun i hi => absurd hi (Nat.not_lt_zero i)⟩
  unfold init_drm at h
  simp only at h
  split_ifs at h with hfd
  · cases h
    exact (h0 _).2
  · cases hres : w.drmModeGetResources with
    | none =>
      simp only [hres] at h
      cases h
      exact (h0 _).2
    | some resources =>
      simp only [hres] at h
      have hcrtcs : w.crtcs = resources.crtcs := by
        simp only [World.crtcs, hres]
      rw [hcrtcs] at h0 ⊢
      have hinv := init_drm_connectors_invariant w c a resources.crtcs
        (fun ls => ResolvedEntries w resources.crtcs ls)
        (fun _ ls => ∀ i, i < ls.1.ndisp →
          ∃ e, ls.1.encoder i = some e ∧ ls.1.crtc_id i = e.crtc_id ∧
            ResolvedEncoder w resources.crtcs e)
        resources.connectors
        (fun ls ls1 id _ hI hstep =>
          init_drm_connector_next_resolved w c a resources.crtcs ls ls1 id hI hstep)
        (fun ls ls1 id code _ hI hstep =>
          init_drm_connector_ret_resolved w c a resources.crtcs ls ls1 id code hI hstep)
        ({ State.init cap with fd := init_drm_open w modules (State.init cap).fd }, none)
        (h0 _)
      split at h
      · cases h
      · rename_i code ls hloop
        cases h
        exact hinv.2 _ _ hloop
      · rename_i ls hloop
        have hds := (hinv.1 _ hloop).2
        split_ifs at h with hz
        · cases h; exact hds
        · cases h; exact hds

/-- Counterexample to C12: on the device whose two encoders have no pipe assigned and can
both drive pipe 20, `init_drm` succeeds with two entries, and both are on pipe 20. -/
theorem init_drm_entries_share_pipe :
    init_drm free_encoders (-1) 0 (State.init 0) =
      some (0, final_state (init_drm free_encoders (-1) 0 (State.init 0))) ∧
    (final_state (init_drm free_encoders (-1) 0 (State.init 0))).ndisp = 2 ∧
    (final_state (init_drm free_encoders (-1) 0 (State.init 0))).connector_id 0 = 5 ∧
    (final_state (init_drm free_encoders (-1) 0 (State.init 0))).connector_id 1 = 7 ∧
    (final_state (init_drm free_encoders (-1) 0 (State.init 0))).crtc_id 0 = 20 ∧
    (final_state (init_drm free_encoders (-1) 0 (State.init 0))).crtc_id 1 = 20 :=
  ⟨final_state_eq _ 0 (by decide), by decide, by decide, by decide, by decide, by decide⟩

/-- C12, amended: in the Display Set left by any return of `init_drm`, the pipe identifier
of every entry is the pipe of the encoder recorded for the entry, and it is not 0: that
encoder is an encoder of the device, on the pipe the device reports for it or, when it
reports none, on the first pipe its `possible_crtcs` allows.  So two entries whose recorded
encoders are on different pipes have different pipe identifiers; nothing else keeps two
entries off the same pipe. -/
theorem init_drm_entry_pipes (w : World) (c : Int) (a : Nat) (cap : Nat) (r : Int)
    (st : State) (h : init_drm w c a (State.init cap) = some (r, st)) :
    (∀ i, i < st.ndisp →
      ∃ (enc : drmModeEncoder) (eid : Nat),
        st.encoder i = some enc ∧ st.crtc_id i = enc.crtc_id ∧ st.crtc_id i ≠ 0 ∧
        (((w.drmModeGetEncoder eid).crtc_id ≠ 0 ∧ enc = w.drmModeGetEncoder eid) ∨
          ((w.drmModeGetEncoder eid).crtc_id = 0 ∧
            enc = { w.drmModeGetEncoder eid with
              crtc_id := init_drm_find_crtc (w.drmModeGetEncoder eid).possible_crtcs
                w.crtcs 0 }))) ∧
    (∀ (i j : Nat) (ei ej : drmModeEncoder), i < st.ndisp → j < st.ndisp →
      st.encoder i = some ei → st.encoder j = some ej → ei.crtc_id ≠ ej.crtc_id →
      st.crtc_id i ≠ st.crtc_id j) := by
  have hres := init_drm_resolved_entries w c a cap r st h
  constructor
  · intro i hi
    obtain ⟨e, he1, he2, hne, eid, hcase⟩ := hres i hi
    exact ⟨e, eid, he1, he2, by rw [he2]; exact hne, hcase⟩
  · intro i j ei ej hi hj hei hej hne
    obtain ⟨e1, h1, h2, _⟩ := hres i hi
    obtain ⟨e2, h3, h4, _⟩ := hres j hj
    rw [hei] at h1
    rw [hej] at h3
    cases h1
    cases h3
    rw [h2, h4]
    exact hne

/-- Witness for C12: on the dual device the encoders 10 and 11 are assigned the pipes 20
and 21, and the two entries are on different pipes. -/
theorem init_drm_entry_pipes_witness :
    init_drm dual_output (-1) 0 (State.init 0) =
      some (0, final_state (init_drm dual_output (-1) 0 (State.init 0))) ∧
    (final_state (init_drm dual_output (-1) 0 (State.init 0))).crtc_id 0 = 20 ∧
    (final_state (init_drm dual_output (-1) 0 (State.init 0))).crtc_id 1 = 21 ∧
    (final_state (init_drm dual_output (-1) 0 (State.init 0))).crtc_id 0 ≠
      (final_state (init_drm dual_output (-1) 0 (State.init 0))).crtc_id 1 :=
  ⟨final_state_eq _ 0 (by decide), by decide, by decide,
   (init_drm_entry_pipes dual_output (-1) 0 0 0
      (final_state (init_drm dual_output (-1) 0 (State.init 0)))
      (final_state_eq _ 0 (by decide))).2 0 1
      { encoder_id := 10, crtc_id := 20, possible_crtcs := 1 }
      { encoder_id := 11, crtc_id := 21, possible_crtcs := 2 }
      (by decide) (by decide) (by decide) (by decide) (by decide)⟩

end Kmscube
